import Mathlib

/-!
Verification of the lemmapath sentence-practice application core.

Shallow embedding of:
  * `src/src/data/tokenize.ts` (token counting),
  * the SRS scheduler, linear advance and card selection of `src/src/App.tsx`
    (`scoreSRS`, `scheduleSRS`, `pickCurrent`, `bumpLinear`, `rateSRS`,
    `ensureTokenCountForRow`),
  * the store operations of `src/src/data/db.ts` (importers section:
    `parseDelimited`, `pickHeader`, `inferMappingFromHeaders`, `getRowValue`,
    `clearPathData`, `normalizeOrdersAndClampProgress`, `deleteImportBatch`,
    `getNextOrderBase`, `importCSVorTSV`),
  * the v1 -> v2 store migration (`LemmaDB` version(2).upgrade) and the backup
    restore path (`src/src/data/backup.ts`, `importAllFromJSON`).

Modelling conventions: JS numbers are rationals (ℚ); counters and order
pointers are naturals (they are non-negative along every code path embedded
here); the IndexedDB tables are lists keyed by their Dexie primary keys, with
`put`/`bulkPut` embedded as key-based upsert; index range queries are embedded
as filters followed by sorting in index order (index key, then primary key).
-/

namespace LemmaPath

/-! ## Tokenizer (`src/src/data/tokenize.ts`) -/

/-- Characters removed by the zero-width strip `/[​-‍﻿]/g`. -/
def isZeroWidth (c : Char) : Bool :=
  (0x200B ≤ c.toNat && c.toNat ≤ 0x200D) || c.toNat == 0xFEFF

/-- The JS `\s` class (whitespace and line terminators), also what
`String.prototype.trim` removes. -/
def isJsSpace (c : Char) : Bool :=
  c == ' ' || c == '\t' || c == '\n' || c == '\r' ||
  c.toNat == 0x0B || c.toNat == 0x0C || c.toNat == 0xA0 || c.toNat == 0x1680 ||
  (0x2000 ≤ c.toNat && c.toNat ≤ 0x200A) || c.toNat == 0x2028 || c.toNat == 0x2029 ||
  c.toNat == 0x202F || c.toNat == 0x205F || c.toNat == 0x3000 || c.toNat == 0xFEFF

def jsTrimList (l : List Char) : List Char :=
  ((l.dropWhile isJsSpace).reverse.dropWhile isJsSpace).reverse

/-- JS `String.prototype.trim`. -/
def jsTrim (s : String) : String := String.mk (jsTrimList s.data)

/-- The split class of `countTokensDefault`:
`[\s.,;:!?(){}\[\]"'“”‘’—–\-_/\\|]`. -/
def isTokenDelim (c : Char) : Bool :=
  isJsSpace c || c == '.' || c == ',' || c == ';' || c == ':' || c == '!' || c == '?' ||
  c == '(' || c == ')' || c == Char.ofNat 0x7B || c == Char.ofNat 0x7D ||
  c == '[' || c == ']' || c == Char.ofNat 0x22 || c == Char.ofNat 0x27 ||
  c == Char.ofNat 0x201C || c == Char.ofNat 0x201D ||
  c == Char.ofNat 0x2018 || c == Char.ofNat 0x2019 ||
  c == Char.ofNat 0x2014 || c == Char.ofNat 0x2013 ||
  c == '-' || c == '_' || c == '/' || c == Char.ofNat 0x5C || c == '|'

/-- Split a character list at every character satisfying `p` (a run of `k`
delimiters produces `k-1` empty pieces, like the regex split does between
adjacent delimiter-class matches collapsed by `+`; here the `+` in the regex is
reflected by filtering empties afterwards, exactly as `.filter(Boolean)`
does in the source). -/
def splitOnPred (p : Char → Bool) : List Char → List Char → List (List Char)
  | [], acc => [acc.reverse]
  | c :: rest, acc =>
      if p c then acc.reverse :: splitOnPred p rest []
      else splitOnPred p rest (c :: acc)

/-- `countTokensDefault` from `tokenize.ts`: strip zero-width characters, trim,
split on the punctuation/whitespace class, count non-empty pieces. -/
def countTokensDefault (text : String) : Nat :=
  let cleaned := jsTrimList (text.data.filter (fun c => !isZeroWidth c))
  if cleaned.isEmpty then 0
  else ((splitOnPred isTokenDelim cleaned []).filter (fun piece => !piece.isEmpty)).length

/-- ASCII fragment of the Unicode `\p{P}` and `\p{S}` classes. The claims under
verification never exercise CJK mode, so the embedding restricts the character
classes of `countTokensCJKApprox` to their ASCII fragment. -/
def isAsciiPunctSym (c : Char) : Bool :=
  (0x21 ≤ c.toNat && c.toNat ≤ 0x2F) || (0x3A ≤ c.toNat && c.toNat ≤ 0x40) ||
  (0x5B ≤ c.toNat && c.toNat ≤ 0x60) || (0x7B ≤ c.toNat && c.toNat ≤ 0x7E)

/-- `countTokensCJKApprox` from `tokenize.ts`: strip whitespace and
punctuation/symbols, count the remaining characters. -/
def countTokensCJKApprox (text : String) : Nat :=
  (jsTrimList (text.data.filter (fun c => !(isJsSpace c || isAsciiPunctSym c)))).length

/-- `countTokens` from `tokenize.ts`. -/
def countTokens (text : String) (cjkMode : Bool) : Nat :=
  if cjkMode then countTokensCJKApprox text else countTokensDefault text

/-! ## SRS scheduler (`src/src/App.tsx`, lines 52-75) -/

inductive Rating
  | again
  | hard
  | good
  | easy
deriving DecidableEq, Repr

/-- `clamp` from `App.tsx`: `Math.max(a, Math.min(b, n))`. -/
def clamp (n a b : ℚ) : ℚ := max a (min b n)

structure ScoredSRS where
  ease : ℚ
  mult : ℚ
  minDays : ℚ
deriving DecidableEq, Repr

/-- `scoreSRS` from `App.tsx`. -/
def scoreSRS (ease : ℚ) (rating : Rating) : ScoredSRS :=
  match rating with
  | .again => ⟨clamp (ease - 2/10) (13/10) (28/10), 0, 0⟩
  | .hard  => ⟨clamp (ease - 5/100) (13/10) (28/10), 1, 1⟩
  | .good  => ⟨clamp (ease + 0) (13/10) (28/10), 18/10, 1⟩
  | .easy  => ⟨clamp (ease + 1/10) (13/10) (28/10), 22/10, 1⟩

/-- JS `Math.round` (round half up) as a rational-valued function. -/
def jsRound (x : ℚ) : ℚ := ((x + 1/2).floor : ℤ)

structure SRSCore where
  reps : Nat
  intervalDays : ℚ
  ease : ℚ
deriving DecidableEq, Repr

/-- `scheduleSRS` from `App.tsx`. -/
def scheduleSRS (state : SRSCore) (rating : Rating) : SRSCore :=
  let scored := scoreSRS state.ease rating
  let reps := if rating = .again then 0 else state.reps + 1
  let nextInterval : ℚ :=
    if rating = .again then 0
    else if state.reps = 0 then max 1 scored.minDays
    else if state.reps = 1 then max 3 scored.minDays
    else max (jsRound (state.intervalDays * scored.ease * scored.mult)) scored.minDays
  ⟨reps, nextInterval, scored.ease⟩

/-- `dueAt` computation of `rateSRS`: `now + intervalDays * 24*60*60*1000`. -/
def msPerDay : ℚ := 24 * 60 * 60 * 1000

/-! ## Data model (`src/src/data/db.ts`)

Presentation-only fields (name, theme, TTS settings, goal) are omitted from
`Dataset`; no embedded operation reads them. -/

structure Dataset where
  id : String
  cjkMode : Bool
  createdAt : ℚ
deriving DecidableEq, Repr

structure Deck where
  id : String
  datasetId : String
  name : String
  createdAt : ℚ
deriving DecidableEq, Repr

/-- A Sentence row. `legacyTarget` models the dynamic fallback chain
`(r as any).target ?? .Target ?? .answer ?? .response` read by
`ensureTokenCountForRow`; `legacySource` models
`(r as any).english ?? .English ?? .source ?? .prompt` (`none` on rows written
by the current code). -/
structure SentenceRow where
  id : String
  datasetId : String
  deckId : String
  order : Nat
  importId : String
  sourceText : String
  targetText : String
  transliterationText : Option String
  glossText : Option String
  tokenCount : Nat
  legacyTarget : Option String
  legacySource : Option String
deriving DecidableEq, Repr

/-- Legacy dataset-wide progress (`ProgressRow` in `db.ts`). -/
structure ProgressRow where
  datasetId : String
  lifetimeReps : Nat
  lifetimeTokens : Nat
  currentIndex : Nat
  updatedAt : ℚ
deriving DecidableEq, Repr

inductive StudyMode
  | linear
  | srs
deriving DecidableEq, Repr

structure PathProgressRow where
  datasetId : String
  deckId : String
  mode : StudyMode
  linearOrder : Nat
  srsNewOrder : Nat
  lifetimeReps : Nat
  lifetimeTokens : Nat
  updatedAt : ℚ
deriving DecidableEq, Repr

/-- An SRS row. The `lapses`/`updatedAt` fields declared in the `SRSRow` type
of `db.ts` are never written or read by the embedded operations (`App.tsx`
writes `lastReviewedAt`/`createdAt` through an `as any` cast instead), so the
embedding carries the fields the code actually uses. -/
structure SRSRow where
  datasetId : String
  deckId : String
  sentenceId : String
  dueAt : ℚ
  reps : Nat
  ease : ℚ
  intervalDays : ℚ
  lastReviewedAt : ℚ
  createdAt : ℚ
deriving DecidableEq, Repr

inductive ImportMode
  | append
  | replace
deriving DecidableEq, Repr

structure ImportBatchRow where
  id : String
  datasetId : String
  deckId : String
  filename : String
  createdAt : ℚ
  mode : ImportMode
  startOrder : Nat
  endOrder : Int
  rowCount : Nat
deriving DecidableEq, Repr

/-- The Dexie store: each table is a list keyed by its primary key. The
`stats`/`seenWords` tables (vocabulary-exposure metrics) are outside the scope
of the verified claims and are omitted. -/
structure DB where
  datasets : List Dataset
  decks : List Deck
  imports : List ImportBatchRow
  sentences : List SentenceRow
  progress : List ProgressRow
  pathProgress : List PathProgressRow
  srs : List SRSRow
deriving DecidableEq, Repr

/-! ### Index-ordered queries and keyed upserts -/

/-- Code-point comparison of character lists (the IndexedDB key order on
strings, and the order `String(a).localeCompare(String(b))` yields on the
lowercase-alphanumeric ids this application generates). -/
def charListLe : List Char → List Char → Bool
  | [], _ => true
  | _ :: _, [] => false
  | a :: as, b :: bs =>
      if a.toNat < b.toNat then true
      else if b.toNat < a.toNat then false
      else charListLe as bs

def strLe (a b : String) : Bool := charListLe a.data b.data

/-- Order of the `[datasetId+deckId+order]` index within one deck:
index key (`order`), then primary key (`id`). -/
def sentenceLe (a b : SentenceRow) : Prop :=
  a.order < b.order ∨ (a.order = b.order ∧ strLe a.id b.id = true)

instance : DecidableRel sentenceLe := fun a b => by
  unfold sentenceLe; infer_instance

def sortSentences (l : List SentenceRow) : List SentenceRow :=
  List.insertionSort sentenceLe l

/-- Order of the `[datasetId+deckId+dueAt]` index within one deck: index key
(`dueAt`), then primary key (which, with dataset and deck fixed, is the
sentence id). `Collection.sortBy("dueAt")` re-sorts by `dueAt` stably, which
leaves this order unchanged. -/
def srsLe (a b : SRSRow) : Prop :=
  a.dueAt < b.dueAt ∨ (a.dueAt = b.dueAt ∧ strLe a.sentenceId b.sentenceId = true)

instance : DecidableRel srsLe := fun a b => by
  unfold srsLe; infer_instance

def sortSRSByDue (l : List SRSRow) : List SRSRow :=
  List.insertionSort srsLe l

/-- `where("[datasetId+deckId]").equals([ds, dk])` as an unordered row set. -/
def sentencesOf (db : DB) (ds dk : String) : List SentenceRow :=
  db.sentences.filter (fun s => s.datasetId == ds && s.deckId == dk)

/-- `where("[datasetId+deckId+order]").equals([ds, dk, o]).first()`:
the row with that exact key having the least primary key. -/
def getByOrder (db : DB) (ds dk : String) (o : Nat) : Option SentenceRow :=
  (sortSentences ((sentencesOf db ds dk).filter (fun s => s.order == o))).head?

/-- `where("[datasetId+deckId+order]").between([ds,dk,0], [ds,dk,MAX])` in
index order (`order` values are naturals, so the bounds admit every row of the
deck). -/
def orderedSentences (db : DB) (ds dk : String) : List SentenceRow :=
  sortSentences (sentencesOf db ds dk)

/-- `getNextOrderBase` from the importers section of `db.ts`. -/
def getNextOrderBase (db : DB) (ds dk : String) : Nat :=
  match (orderedSentences db ds dk).getLast? with
  | some lastRow => lastRow.order + 1
  | none => 0

def getPathProgress (db : DB) (ds dk : String) : Option PathProgressRow :=
  db.pathProgress.find? (fun p => p.datasetId == ds && p.deckId == dk)

def getSRS (db : DB) (ds dk sid : String) : Option SRSRow :=
  db.srs.find? (fun s => s.datasetId == ds && s.deckId == dk && s.sentenceId == sid)

/-- `db.sentences.get(id)` (primary-key get). -/
def getSentenceById (db : DB) (sid : String) : Option SentenceRow :=
  db.sentences.find? (fun s => s.id == sid)

/-- `where("[datasetId+deckId+dueAt]").between([ds,dk,0], [ds,dk,now], true,
true)`: both bounds inclusive. -/
def dueRows (db : DB) (ds dk : String) (now : ℚ) : List SRSRow :=
  db.srs.filter (fun s =>
    s.datasetId == ds && s.deckId == dk && decide (0 ≤ s.dueAt) && decide (s.dueAt ≤ now))

def dueSorted (db : DB) (ds dk : String) (now : ℚ) : List SRSRow :=
  sortSRSByDue (dueRows db ds dk now)

/-- `table.put` (upsert): replace the row with the same primary key when one
exists (keys are unique in a Dexie table, so the map touches one row), else
append. -/
def upsertBy {α : Type} (q : α → Bool) (l : List α) (p : α) : List α :=
  if l.any q then l.map (fun x => if q x then p else x) else l ++ [p]

/-- `sentences.put` (primary key `id`). -/
def putSentence (l : List SentenceRow) (r : SentenceRow) : List SentenceRow :=
  upsertBy (fun x => x.id == r.id) l r

def bulkPutSentences (l : List SentenceRow) (ms : List SentenceRow) : List SentenceRow :=
  ms.foldl putSentence l

/-- `pathProgress.put` (primary key `[datasetId+deckId]`). -/
def putPathProgress (l : List PathProgressRow) (p : PathProgressRow) : List PathProgressRow :=
  upsertBy (fun x => x.datasetId == p.datasetId && x.deckId == p.deckId) l p

/-- `srs.put` (primary key `[datasetId+deckId+sentenceId]`). -/
def putSRS (l : List SRSRow) (s : SRSRow) : List SRSRow :=
  upsertBy (fun x => x.datasetId == s.datasetId && x.deckId == s.deckId &&
    x.sentenceId == s.sentenceId) l s

/-! ## App-level scheduler state and operations (`src/src/App.tsx`)

`AppState` carries the React state the scheduler functions read and write:
the selected dataset/deck ids, the loaded `dataset` object, and the
`pathProg`/`row`/`srsRow` state values. View-only state (counters shown in the
header, toast messages) and the SeenWord/DatasetStats side updates of
`trackWordsFromRow`/`refreshCounts` are outside the embedded store. -/

structure AppState where
  db : DB
  datasetId : String
  deckId : String
  dataset : Option Dataset
  pathProg : Option PathProgressRow
  row : Option SentenceRow
  srsRow : Option SRSRow
deriving DecidableEq, Repr

/-- JS `a || b` on strings (empty string is falsy). -/
def jsOr (a b : String) : String := if a == "" then b else a

/-- `ensureTokenCountForRow` from `App.tsx` (lines 463-492): recompute the
token count from the (possibly legacy-backfilled, trimmed) target text and
persist the patched row when anything differs. Returns the computed token
value the caller uses and the updated store. The transient `setRow(patched)`
is not modelled: every caller overwrites `row` afterwards. -/
def effTargetText (r : SentenceRow) : String :=
  jsTrim (jsOr r.targetText (r.legacyTarget.getD ""))

def effSourceText (r : SentenceRow) : String :=
  jsTrim (jsOr r.sourceText (r.legacySource.getD ""))

def ensureTokenCountForRow (dataset : Option Dataset) (db : DB) (r : SentenceRow) :
    Nat × DB :=
  match dataset with
  | none => (r.tokenCount, db)
  | some ds =>
    let targetText := effTargetText r
    let sourceText := effSourceText r
    let computed := countTokens targetText ds.cjkMode
    -- `typeof r.tokenCount !== "number"` is always false in the typed embedding.
    if (targetText ≠ "" ∧ r.targetText ≠ targetText) ∨
        (sourceText ≠ "" ∧ r.sourceText ≠ sourceText) ∨ r.tokenCount ≠ computed then
      let patched : SentenceRow :=
        { r with targetText := targetText, sourceText := sourceText, tokenCount := computed }
      (computed, { db with sentences := putSentence db.sentences patched })
    else (r.tokenCount, db)

/-- The seed ease `2.2` as a normalized rational (11/5), written as a
constructor literal so that concrete states evaluate inside `decide`. -/
def ease22 : ℚ := ⟨11, 5, by decide, by decide⟩

/-- The zero-initialized SRS row seeded by `pickCurrent`/`rateSRS`:
`{dueAt: now, reps: 0, ease: 2.2, intervalDays: 0, lastReviewedAt: 0,
createdAt: now}`. -/
def seededSRS (ds dk sid : String) (now : ℚ) : SRSRow :=
  { datasetId := ds, deckId := dk, sentenceId := sid, dueAt := now, reps := 0,
    ease := ease22, intervalDays := 0, lastReviewedAt := 0, createdAt := now }

/-- `pickCurrent` from `App.tsx` (lines 357-445). -/
def pickCurrent (st : AppState) (now : ℚ) : AppState :=
  if st.datasetId == "" || st.deckId == "" then st else
  match getPathProgress st.db st.datasetId st.deckId with
  | none => { st with row := none, srsRow := none }
  | some pp =>
    match pp.mode with
    | .linear =>
      match getByOrder st.db st.datasetId st.deckId pp.linearOrder with
      | some current => { st with row := some current, srsRow := none }
      | none =>
        -- Fallback: clamp the pointer to the nearest existing row.
        let ordered := orderedSentences st.db st.datasetId st.deckId
        let firstRow := ordered.head?
        let lastRow := ordered.getLast?
        let chosen :=
          match lastRow with
          | some l => if pp.linearOrder > l.order then some l else firstRow
          | none => firstRow
        match chosen with
        | some c =>
          let fixed : PathProgressRow := { pp with linearOrder := c.order, updatedAt := now }
          { st with db := { st.db with pathProgress := putPathProgress st.db.pathProgress fixed },
                    pathProg := some fixed, row := some c, srsRow := none }
        | none => { st with row := none, srsRow := none }
    | .srs =>
      -- SRS: due first, else new.
      match (dueSorted st.db st.datasetId st.deckId now).head? with
      | some s =>
        { st with row := getSentenceById st.db s.sentenceId, srsRow := some s }
      | none =>
        match getByOrder st.db st.datasetId st.deckId pp.srsNewOrder with
        | none => { st with row := none, srsRow := none }
        | some fresh =>
          match getSRS st.db st.datasetId st.deckId fresh.id with
          | some existing => { st with row := some fresh, srsRow := some existing }
          | none =>
            let seeded := seededSRS st.datasetId st.deckId fresh.id now
            { st with db := { st.db with srs := putSRS st.db.srs seeded },
                      row := some fresh, srsRow := some seeded }

/-- The `nextProg` row written by `bumpLinear` on success: pointer moved,
`srsNewOrder` ratcheted to `max(srsNewOrder, newOrder)`, lifetime counters
advanced when `countRep`. -/
def bumpNextProg (pp : PathProgressRow) (nextOrder : Nat) (countRep : Bool)
    (leavingTokens : Nat) (now : ℚ) : PathProgressRow :=
  { pp with linearOrder := nextOrder,
            srsNewOrder := max pp.srsNewOrder nextOrder,
            lifetimeReps := pp.lifetimeReps + (if countRep then 1 else 0),
            lifetimeTokens := pp.lifetimeTokens + (if countRep then leavingTokens else 0),
            updatedAt := now }

/-- `bumpLinear` from `App.tsx` (lines 508-546). Note the next pointer is
`Math.max(0, currentOrder + delta)`: there is no upper clamp, and when no
Sentence exists at the resulting order the operation returns early (toast
"End of path") without touching the progress row. -/
def bumpLinear (st : AppState) (delta : Int) (countRep : Bool) (now : ℚ) : AppState :=
  if st.datasetId == "" || st.deckId == "" then st else
  match st.pathProg with
  | none => st
  | some pp =>
    let ensured : Nat × DB :=
      match countRep, st.row with
      | true, some leaving => ensureTokenCountForRow st.dataset st.db leaving
      | _, _ => (0, st.db)
    let db1 := ensured.2
    let nextOrder : Nat := (max 0 ((pp.linearOrder : Int) + delta)).toNat
    match getByOrder db1 st.datasetId st.deckId nextOrder with
    | none => { st with db := db1 }
    | some next =>
      let nextProg := bumpNextProg pp nextOrder countRep ensured.1 now
      { st with db := { db1 with pathProgress := putPathProgress db1.pathProgress nextProg },
                pathProg := some nextProg, row := some next, srsRow := none }

/-- The `base` SRS row of `rateSRS`: the loaded `srsRow`, else a freshly
seeded one. -/
def rateSRSBase (st : AppState) (r : SentenceRow) (now : ℚ) : SRSRow :=
  st.srsRow.getD (seededSRS st.datasetId st.deckId r.id now)

/-- The `nextSRS` row written by `rateSRS`: scheduler output plus
`dueAt = now + intervalDays * 24*60*60*1000` and `lastReviewedAt = now`. -/
def rateSRSNextSRS (st : AppState) (r : SentenceRow) (rating : Rating) (now : ℚ) :
    SRSRow :=
  let base := rateSRSBase st r now
  let nextState := scheduleSRS ⟨base.reps, base.intervalDays, base.ease⟩ rating
  { base with reps := nextState.reps, intervalDays := nextState.intervalDays,
              ease := nextState.ease, dueAt := now + nextState.intervalDays * msPerDay,
              lastReviewedAt := now }

/-- The `nextProg` row written by `rateSRS`: lifetime counters advance
(`countRep` is the constant `true` in the source); "If this was a 'new' card
(not due), move the new pointer forward" — the test is whether `srsRow` was
loaded. -/
def rateSRSNextProg (st : AppState) (pp : PathProgressRow) (rowTokens : Nat) (now : ℚ) :
    PathProgressRow :=
  { pp with lifetimeReps := pp.lifetimeReps + 1,
            lifetimeTokens := pp.lifetimeTokens + rowTokens,
            srsNewOrder := if st.srsRow.isSome then pp.srsNewOrder else pp.srsNewOrder + 1,
            updatedAt := now }

/-- `rateSRS` from `App.tsx` (lines 548-602). The trailing `refreshCounts`
only refreshes view state; the trailing `pickCurrent` is embedded. -/
def rateSRS (st : AppState) (rating : Rating) (now : ℚ) : AppState :=
  if st.datasetId == "" || st.deckId == "" then st else
  match st.pathProg, st.row with
  | some pp, some r =>
    let ensured := ensureTokenCountForRow st.dataset st.db r
    let db2 := { ensured.2 with srs := putSRS ensured.2.srs (rateSRSNextSRS st r rating now) }
    let nextProg := rateSRSNextProg st pp ensured.1 now
    let db3 := { db2 with pathProgress := putPathProgress db2.pathProgress nextProg }
    pickCurrent { st with db := db3, pathProg := some nextProg } now
  | _, _ => st

/-- The state `rateSRS` hands to its trailing `pickCurrent` (after the
ensure-patch, the SRS write and the progress write), spelled out for
reasoning about `rateSRS` compositionally. -/
def rateSRSPostState (st : AppState) (pp : PathProgressRow) (r : SentenceRow)
    (rating : Rating) (now : ℚ) : AppState :=
  { st with
    db := { (ensureTokenCountForRow st.dataset st.db r).2 with
              srs := putSRS (ensureTokenCountForRow st.dataset st.db r).2.srs
                (rateSRSNextSRS st r rating now),
              pathProgress := putPathProgress
                (ensureTokenCountForRow st.dataset st.db r).2.pathProgress
                (rateSRSNextProg st pp (ensureTokenCountForRow st.dataset st.db r).1 now) },
    pathProg := some (rateSRSNextProg st pp (ensureTokenCountForRow st.dataset st.db r).1 now) }

def exDataset : Dataset := { id := "ds", cjkMode := false, createdAt := 0 }

def exDeck : Deck := { id := "dk", datasetId := "ds", name := "Main", createdAt := 0 }

def c1s0 : SentenceRow :=
  { id := "s0", datasetId := "ds", deckId := "dk", order := 0, importId := "imp",
    sourceText := "x", targetText := "a b c", transliterationText := none,
    glossText := none, tokenCount := 3, legacyTarget := none, legacySource := none }

def c1s1 : SentenceRow :=
  { c1s0 with id := "s1", order := 1, targetText := "a b c d e", tokenCount := 5 }

def c1s2 : SentenceRow :=
  { c1s0 with id := "s2", order := 2, targetText := "a b", tokenCount := 2 }

def c1Prog : PathProgressRow :=
  { datasetId := "ds", deckId := "dk", mode := .linear, linearOrder := 0,
    srsNewOrder := 0, lifetimeReps := 0, lifetimeTokens := 0, updatedAt := 0 }

def c1DB : DB :=
  { datasets := [exDataset], decks := [exDeck], imports := [],
    sentences := [c1s0, c1s1, c1s2], progress := [],
    pathProgress := [c1Prog], srs := [] }

def c1St0 : AppState :=
  { db := c1DB, datasetId := "ds", deckId := "dk", dataset := some exDataset,
    pathProg := some c1Prog, row := some c1s0, srsRow := none }

def c1St1 : AppState := bumpLinear c1St0 1 true 0
def c1St2 : AppState := bumpLinear c1St1 1 true 0
def c1St3 : AppState := bumpLinear c1St2 1 true 0

def c2SRS0 : SRSRow :=
  { datasetId := "ds", deckId := "dk", sentenceId := "s0", dueAt := 100, reps := 1,
    ease := ease22, intervalDays := 1, lastReviewedAt := 0, createdAt := 0 }

def c2Prog : PathProgressRow := { c1Prog with mode := .srs }

def c2DB : DB :=
  { c1DB with sentences := [c1s0, c1s1], pathProgress := [c2Prog], srs := [c2SRS0] }

def c2St : AppState :=
  { db := c2DB, datasetId := "ds", deckId := "dk", dataset := some exDataset,
    pathProg := some c2Prog, row := none, srsRow := none }

def c9SRS : SRSRow := seededSRS "ds" "dk" "s0" 0

def c9DB : DB :=
  { c1DB with sentences := [c1s0, c1s1], pathProgress := [c2Prog], srs := [c9SRS] }

def c9St : AppState :=
  { db := c9DB, datasetId := "ds", deckId := "dk", dataset := some exDataset,
    pathProg := some c2Prog, row := none, srsRow := none }

def c10St : AppState :=
  { db := c2DB, datasetId := "ds", deckId := "dk", dataset := some exDataset,
    pathProg := some c2Prog, row := some c1s0, srsRow := some c2SRS0 }


/-! ## Import engine (`src/src/data/db.ts`, importers section)

Range queries bounded by `Number.MAX_SAFE_INTEGER` are embedded as unbounded
on the high side: every `order`/`createdAt`/`dueAt` value the code writes is
far below `2^53`, so the bound is never the binding constraint; the lower
bound `0` is kept where the query states it. -/

/-- Contiguous-sublist test (`String.prototype.includes`), needle first. -/
def listSub (needle : List Char) : List Char → Bool
  | [] => needle.isEmpty
  | c :: rest => needle.isPrefixOf (c :: rest) || listSub needle rest

def containsSub (hay needle : String) : Bool := listSub needle.data hay.data

/-- `normKey` from the importers section: `k.trim().toLowerCase()`. -/
def normKey (k : String) : String :=
  String.mk ((jsTrimList k.data).map Char.toLower)

/-- Split at `/\r?\n/`. -/
def splitLinesAux : List Char → List Char → List (List Char)
  | [], acc => [acc.reverse]
  | '\r' :: '\n' :: rest, acc => acc.reverse :: splitLinesAux rest []
  | '\n' :: rest, acc => acc.reverse :: splitLinesAux rest []
  | c :: rest, acc => splitLinesAux rest (c :: acc)

def splitLines (s : String) : List String :=
  (splitLinesAux s.data []).map String.mk

/-- A parsed row: the JS object `{header: value}` as an assoc list with
JS-object update semantics (a repeated key overwrites in place). -/
def objInsert (o : List (String × String)) (k v : String) : List (String × String) :=
  if o.any (fun p => p.1 == k) then o.map (fun p => if p.1 == k then (k, v) else p)
  else o ++ [(k, v)]

def objGet (o : List (String × String)) (k : String) : Option String :=
  (o.find? (fun p => p.1 == k)).map (fun p => p.2)

structure ParsedDelimited where
  headers : List String
  rows : List (List (String × String))
deriving DecidableEq, Repr

/-- `parseDelimited` from the importers section (simple splitter, no CSV
quoting). -/
def parseDelimited (text : String) (delimiter : Char) : ParsedDelimited :=
  let lines := (splitLines text).filter (fun l => !(jsTrim l).isEmpty)
  match lines with
  | [] => ⟨[], []⟩
  | firstLine :: rest =>
    let rawHeaders :=
      (splitOnPred (fun c => c == delimiter) firstLine.data []).map
        (fun cs => jsTrim (String.mk cs))
    let headers := rawHeaders.map normKey
    let rows := rest.map (fun line =>
      let cols := (splitOnPred (fun c => c == delimiter) line.data []).map String.mk
      headers.enum.foldl (fun obj p => objInsert obj p.2 (jsTrim (cols.getD p.1 ""))) [])
    ⟨headers, rows⟩

structure ImportMapping where
  sourceKey : String
  targetKey : String
  translitKey : Option String
  glossKey : Option String
  tokenKey : Option String
  idKey : Option String
deriving DecidableEq, Repr

structure ResolvedMapping where
  sourceKey : String
  targetKey : String
  translitKey : Option String
  glossKey : Option String
  tokenKey : Option String
  idKey : Option String
deriving DecidableEq, Repr

/-- `pickHeader` from the importers section: exact (normalized) match, then
known synonyms, then containment of all containment-tokens, then containment
of any of them. -/
def pickHeader (headers : List String) (primaryKey : String)
    (equalsAny containsAny : List String) : Option String :=
  let hset := headers.map normKey
  let primary := normKey primaryKey
  if hset.contains primary then some primary
  else
    match equalsAny.find? (fun a => hset.contains (normKey a)) with
    | some a => some (normKey a)
    | none =>
      match headers.find? (fun h =>
          !containsAny.isEmpty &&
          containsAny.all (fun p => containsSub (normKey h) (normKey p))) with
      | some h => some (normKey h)
      | none =>
        match headers.find? (fun h =>
            !containsAny.isEmpty &&
            containsAny.any (fun p => containsSub (normKey h) (normKey p))) with
        | some h => some (normKey h)
        | none => none

/-- `inferMappingFromHeaders` from the importers section. -/
def inferMappingFromHeaders (headers : List String) (mapping : ImportMapping) :
    ResolvedMapping :=
  let h := headers.map normKey
  let sourceKey :=
    (pickHeader h mapping.sourceKey
      ["english", "en", "source", "source text", "source sentence", "prompt"]
      ["english"]).getD (normKey mapping.sourceKey)
  let targetKey :=
    (pickHeader h mapping.targetKey
      ["target", "target text", "target sentence", "answer", "response"]
      ["target"]).getD (normKey mapping.targetKey)
  let translitKey :=
    pickHeader h (mapping.translitKey.getD "transliteration")
      ["transliteration", "translit", "romanization", "romaji", "pinyin"] ["translit"]
  let glossKey :=
    pickHeader h (mapping.glossKey.getD "gloss")
      ["gloss", "word-by-word gloss", "word by word gloss", "wbg"]
      ["gloss", "word-by-word", "word by word"]
  let tokenKey :=
    pickHeader h (mapping.tokenKey.getD "tokencount")
      ["tokencount", "token count"] ["token"]
  let idKey :=
    pickHeader h (mapping.idKey.getD "id") ["id", "uuid"] ["id"]
  ⟨sourceKey, targetKey, translitKey, glossKey, tokenKey, idKey⟩

/-- `getRowValue` from the importers section: `String(r[k] ?? r[key] ?? "").trim()`
with `k = normKey(key)`; a missing or empty key yields `""`. -/
def getRowValue (r : List (String × String)) (key : Option String) : String :=
  match key with
  | none => ""
  | some k0 =>
    if k0 == "" then ""
    else
      jsTrim (match objGet r (normKey k0) with
              | some v => v
              | none => (objGet r k0).getD "")

/-- The table deletions of `clearPathData` (the Dexie `where(...).delete()`
calls), before the progress reset. -/
def clearPathDataDb1 (db : DB) (ds dk : String) : DB :=
  { db with
    sentences := db.sentences.filter (fun s => !(s.datasetId == ds && s.deckId == dk)),
    srs := db.srs.filter (fun s =>
      !(s.datasetId == ds && s.deckId == dk && decide (0 ≤ s.dueAt))),
    imports := db.imports.filter (fun i =>
      !(i.datasetId == ds && i.deckId == dk && decide (0 ≤ i.createdAt))) }

def clearPathData (db : DB) (ds dk : String) (now : ℚ) : DB :=
  match getPathProgress (clearPathDataDb1 db ds dk) ds dk with
  | some pp =>
    { clearPathDataDb1 db ds dk with
      pathProgress := putPathProgress (clearPathDataDb1 db ds dk).pathProgress
        { pp with linearOrder := 0, srsNewOrder := 0, updatedAt := now } }
  | none => clearPathDataDb1 db ds dk

/-- Reassign `order := index`, as the `rows.forEach` of
`normalizeOrdersAndClampProgress` does. -/
def assignOrders (rows : List SentenceRow) : List SentenceRow :=
  rows.enum.map (fun p => { p.2 with order := p.1 })

/-- The deck's rows in `[datasetId+deckId+order]` index order, as the
normalization pass reads them. -/
def normalizeRows (db : DB) (ds dk : String) : List SentenceRow :=
  sortSentences (sentencesOf db ds dk)

/-- The `changed` probe of `normalizeOrdersAndClampProgress`. -/
def normalizeChanged (rows : List SentenceRow) : Bool :=
  rows.enum.any (fun p => p.2.order ≠ p.1)

/-- The `bulkPut` step of `normalizeOrdersAndClampProgress` (skipped when
nothing changed or the deck is empty). -/
def normalizeDb1 (db : DB) (ds dk : String) : DB :=
  if normalizeChanged (normalizeRows db ds dk) && !(normalizeRows db ds dk).isEmpty then
    { db with sentences := bulkPutSentences db.sentences (assignOrders (normalizeRows db ds dk)) }
  else db

/-- The clamped PathProgress row written by the normalization pass:
`min(pointer, max(0, n-1))`, or `0` for an empty deck. -/
def normalizeClamped (pp : PathProgressRow) (rows : List SentenceRow) (now : ℚ) :
    PathProgressRow :=
  { pp with
    linearOrder := if rows.isEmpty then 0 else min pp.linearOrder (rows.length - 1),
    srsNewOrder := if rows.isEmpty then 0 else min pp.srsNewOrder (rows.length - 1),
    updatedAt := now }

/-- `normalizeOrdersAndClampProgress` from the importers section: re-number the
deck's rows densely (sorted by existing order, then id) and clamp both
progress pointers to `[0, max(0, n-1)]`. -/
def normalizeOrdersAndClampProgress (db : DB) (ds dk : String) (now : ℚ) : DB :=
  match getPathProgress (normalizeDb1 db ds dk) ds dk with
  | some pp =>
    { normalizeDb1 db ds dk with
      pathProgress := putPathProgress (normalizeDb1 db ds dk).pathProgress
        (normalizeClamped pp (normalizeRows db ds dk) now) }
  | none => normalizeDb1 db ds dk

/-- The primary keys of the batch's rows, as collected by `deleteImportBatch`. -/
def deleteBatchIds (db : DB) (ds dk importId : String) : List String :=
  (db.sentences.filter (fun s =>
    s.datasetId == ds && s.deckId == dk && s.importId == importId)).map (fun r => r.id)

/-- The row/SRS/batch-record deletions of `deleteImportBatch`, before the
normalization pass. -/
def deleteBatchDb2 (db : DB) (ds dk importId : String) : DB :=
  let ids := deleteBatchIds db ds dk importId
  let db1 := if ids.isEmpty then db else
    { db with sentences := db.sentences.filter (fun s => !(ids.contains s.id)),
              srs := db.srs.filter (fun s =>
                !(s.datasetId == ds && s.deckId == dk && ids.contains s.sentenceId)) }
  { db1 with imports := db1.imports.filter (fun i => !(i.id == importId)) }

/-- `deleteImportBatch` from the importers section (one transaction): delete
the batch's Sentences and their SRS rows, delete the ImportBatch record,
re-normalize orders and clamp the progress pointers. Returns the updated
store and the deleted row count. -/
def deleteImportBatch (db : DB) (ds dk importId : String) (now : ℚ) : DB × Nat :=
  (normalizeOrdersAndClampProgress (deleteBatchDb2 db ds dk importId) ds dk now,
   (deleteBatchIds db ds dk importId).length)

/-- `Math.max(0, Number(tokenRaw) || 0)` for the decimal-integer fragment of
the JS number grammar; any other string is `NaN` and `NaN || 0` is `0`. The
claims never exercise fractional or exotic numeric overrides. -/
def parseNatDigits : List Char → Nat → Option Nat
  | [], acc => some acc
  | c :: rest, acc =>
      if c.isDigit then parseNatDigits rest (acc * 10 + (c.toNat - 48)) else none

def jsTokenCount (s : String) : Nat := (parseNatDigits s.data 0).getD 0

structure ImportOutcome where
  imported : Nat
  headers : List String
  resolved : ResolvedMapping
deriving DecidableEq, Repr

/-- The error thrown when no source or target column resolves; it interpolates
the discovered headers. -/
def missingColumnsMessage (headers : List String) : String :=
  "Missing required columns. Found headers: " ++ String.intercalate ", " headers ++
    ".\n\nExpected at least English + Target (or a header containing \"target\", like \"Target Language (Greek)\")."

/-- The row loop of `importCSVorTSV`: skip rows with empty source and target,
take the token count from a non-empty token column else compute it, use the
external id if present else a freshly generated one (`makeId("s")` is embedded
as the deterministic supply `freshId`, indexed by the number of rows inserted
so far), and assign `order := baseOrder + inserted`. -/
def buildImportRows (dsId dk importId : String) (cjk : Bool) (freshId : Nat → String)
    (resolved : ResolvedMapping) (baseOrder : Nat) :
    List (List (String × String)) → Nat → List SentenceRow
  | [], _ => []
  | r :: rest, inserted =>
    let sourceText := getRowValue r (some resolved.sourceKey)
    let targetText := getRowValue r (some resolved.targetKey)
    if sourceText == "" && targetText == "" then
      buildImportRows dsId dk importId cjk freshId resolved baseOrder rest inserted
    else
      let tokenRaw := getRowValue r resolved.tokenKey
      let tokenCount := if tokenRaw == "" then countTokens targetText cjk
                        else jsTokenCount tokenRaw
      let idCandidate := getRowValue r resolved.idKey
      let rowId := if idCandidate == "" then freshId inserted else idCandidate
      let translit := getRowValue r resolved.translitKey
      let gloss := getRowValue r resolved.glossKey
      { id := rowId, datasetId := dsId, deckId := dk, order := baseOrder + inserted,
        importId := importId, sourceText := sourceText, targetText := targetText,
        transliterationText := if translit == "" then none else some translit,
        glossText := if gloss == "" then none else some gloss,
        tokenCount := tokenCount, legacyTarget := none, legacySource := none } ::
        buildImportRows dsId dk importId cjk freshId resolved baseOrder rest (inserted + 1)

/-- `importCSVorTSV` from the importers section. The missing-column error is
thrown before the transaction opens, so the error case returns no store at
all (nothing is written). Inside the transaction the rows are flushed in
batches of 1500, which within one transaction is semantically the sequential
upsert of all built rows; `makeId("imp")` is the parameter `importId`
(assumed fresh, as generated ids are). The `db0` the transaction starts from
is the cleared store in replace mode, the untouched store in append mode. -/
def importDb0 (db : DB) (dataset : Dataset) (deckId : String) (mode : ImportMode)
    (now : ℚ) : DB :=
  if mode = ImportMode.replace then clearPathData db dataset.id deckId now else db

/-- `baseOrder`: `0` in replace mode, else the next free order of `db0`. -/
def importBaseOrder (db : DB) (dataset : Dataset) (deckId : String) (mode : ImportMode)
    (now : ℚ) : Nat :=
  if mode = ImportMode.replace then 0
  else getNextOrderBase (importDb0 db dataset deckId mode now) dataset.id deckId

/-- The rows the import builds and flushes (`toInsert`). -/
def importToInsert (db : DB) (dataset : Dataset) (deckId : String) (text : String)
    (delimiter : Char) (mapping : ImportMapping) (mode : ImportMode)
    (importId : String) (freshId : Nat → String) (now : ℚ) : List SentenceRow :=
  buildImportRows dataset.id deckId importId dataset.cjkMode freshId
    (inferMappingFromHeaders (parseDelimited text delimiter).headers mapping)
    (importBaseOrder db dataset deckId mode now) (parseDelimited text delimiter).rows 0

def importCSVorTSV (db : DB) (dataset : Dataset) (deckId filename : String)
    (text : String) (delimiter : Char) (mapping : ImportMapping) (mode : ImportMode)
    (importId : String) (freshId : Nat → String) (now : ℚ) :
    Except String (DB × ImportOutcome) :=
  let parsed := parseDelimited text delimiter
  let headers := parsed.headers
  let resolved := inferMappingFromHeaders headers mapping
  let haveSource := headers.contains (normKey resolved.sourceKey)
  let haveTarget := headers.contains (normKey resolved.targetKey)
  if haveSource && haveTarget then
    let db0 := importDb0 db dataset deckId mode now
    let baseOrder := importBaseOrder db dataset deckId mode now
    let toInsert := importToInsert db dataset deckId text delimiter mapping mode
      importId freshId now
    let inserted := toInsert.length
    let db1 := { db0 with sentences := bulkPutSentences db0.sentences toInsert }
    let batch : ImportBatchRow :=
      { id := importId, datasetId := dataset.id, deckId := deckId, filename := filename,
        createdAt := now, mode := mode, startOrder := baseOrder,
        endOrder := max ((baseOrder : Int) - 1) ((baseOrder : Int) + (inserted : Int) - 1),
        rowCount := inserted }
    let db2 := { db1 with imports := db1.imports ++ [batch] }
    Except.ok (db2, { imported := inserted, headers := headers, resolved := resolved })
  else
    Except.error (missingColumnsMessage headers)

/-! ## v1 -> v2 store migration (`src/src/data/db.ts`, `LemmaDB` constructor)

The v1 store has Sentences without `deckId`/`order`/`importId` and only the
dataset-wide `progress` table. The `version(2).upgrade` callback creates a
"Main" deck per dataset, assigns each dataset's Sentences sequential orders
sorted by id (`localeCompare` is embedded as code-point string order; the two
agree on the lowercase-alphanumeric ids the application generates), and
derives per-deck PathProgress from the legacy progress record. The
`existingDeck`/`existingPP` probes are idempotency guards that are vacuous on
the freshly created v2 tables (dataset ids are unique), and Sentences whose
`datasetId` matches no dataset row are never visited by the loop (no such row
is created by the v1 code). -/

structure V1Sentence where
  id : String
  datasetId : String
  sourceText : String
  targetText : String
  transliterationText : Option String
  glossText : Option String
  tokenCount : Nat
deriving DecidableEq, Repr

structure V1DB where
  datasets : List Dataset
  sentences : List V1Sentence
  progress : List ProgressRow
deriving DecidableEq, Repr

def v1IdLe (a b : V1Sentence) : Prop := strLe a.id b.id = true

instance : DecidableRel v1IdLe := fun a b => by
  unfold v1IdLe; infer_instance

def sortV1ById (l : List V1Sentence) : List V1Sentence :=
  List.insertionSort v1IdLe l

def mkMainDeck (ds : Dataset) : Deck :=
  { id := "deck_" ++ ds.id, datasetId := ds.id, name := "Main", createdAt := ds.createdAt }

def migrateSentences (ds : Dataset) (ss : List V1Sentence) : List SentenceRow :=
  (sortV1ById ss).enum.map (fun p =>
    { id := p.2.id, datasetId := p.2.datasetId, deckId := "deck_" ++ ds.id,
      order := p.1, importId := "legacy", sourceText := p.2.sourceText,
      targetText := p.2.targetText, transliterationText := p.2.transliterationText,
      glossText := p.2.glossText, tokenCount := p.2.tokenCount,
      legacyTarget := none, legacySource := none })

def findLegacyProgress (l : List ProgressRow) (ds : String) : Option ProgressRow :=
  l.find? (fun p => p.datasetId == ds)

/-- The PathProgress derived by the migration for one dataset: both pointers
equal the legacy `currentIndex`, lifetime counters carried over. -/
def derivePathProgress (ds : Dataset) (legacy : Option ProgressRow) (now : ℚ) :
    PathProgressRow :=
  let linearOrder := (legacy.map (fun p => p.currentIndex)).getD 0
  { datasetId := ds.id, deckId := "deck_" ++ ds.id, mode := .linear,
    linearOrder := linearOrder, srsNewOrder := linearOrder,
    lifetimeReps := (legacy.map (fun p => p.lifetimeReps)).getD 0,
    lifetimeTokens := (legacy.map (fun p => p.lifetimeTokens)).getD 0,
    updatedAt := now }

def upgradeV1toV2 (v1 : V1DB) (now : ℚ) : DB :=
  { datasets := v1.datasets
    decks := v1.datasets.map mkMainDeck
    imports := []
    sentences := v1.datasets.flatMap (fun ds =>
      migrateSentences ds (v1.sentences.filter (fun s => s.datasetId == ds.id)))
    progress := v1.progress
    pathProgress := v1.datasets.map (fun ds =>
      derivePathProgress ds (findLegacyProgress v1.progress ds.id) now)
    srs := [] }

/-! ## Backup restore (`src/src/data/backup.ts`, `importAllFromJSON`)

The restore replaces every table inside one transaction (old contents
cleared); the SeenWords/DatasetStats tables it also restores are outside this
embedding. A backup Sentence may predate `deckId`/`order`/`importId`
(modelled as `Option` fields). -/

structure BackupSentence where
  id : String
  datasetId : String
  deckId : Option String
  order : Option Nat
  importId : Option String
  sourceText : String
  targetText : String
  transliterationText : Option String
  glossText : Option String
  tokenCount : Nat
deriving DecidableEq, Repr

structure BackupDoc where
  datasets : List Dataset
  decks : List Deck
  imports : List ImportBatchRow
  sentences : List BackupSentence
  progress : List ProgressRow
  pathProgress : List PathProgressRow
  srs : List SRSRow
deriving DecidableEq, Repr

/-- `ensureDecksForImport` from `backup.ts`: keep the snapshot's decks, then
append a synthesized "Main" deck for every dataset that has none. -/
def ensureDecksForImport (datasets : List Dataset) (decks : List Deck) : List Deck :=
  decks ++ (datasets.filter (fun ds => !(decks.any (fun d => d.datasetId == ds.id)))).map
    (fun ds => { id := "deck_" ++ ds.id, datasetId := ds.id, name := "Main",
                 createdAt := ds.createdAt })

/-- `defaultDeckIdByDataset.get(dsId) ?? deck_${dsId}`: the first deck of the
dataset, else the synthetic id. -/
def defaultDeckIdFor (decks : List Deck) (dsId : String) : String :=
  match decks.find? (fun d => d.datasetId == dsId) with
  | some d => d.id
  | none => "deck_" ++ dsId

/-- Used on the no-upgrade path, where `needsUpgrade` guarantees every
optional field is present; the fallbacks mirror the upgrade-path defaults and
never fire there. -/
def toSentenceRow (s : BackupSentence) : SentenceRow :=
  { id := s.id, datasetId := s.datasetId, deckId := s.deckId.getD "",
    order := s.order.getD 0, importId := s.importId.getD "legacy",
    sourceText := s.sourceText, targetText := s.targetText,
    transliterationText := s.transliterationText, glossText := s.glossText,
    tokenCount := s.tokenCount, legacyTarget := none, legacySource := none }

/-- Insertion order of the `byDs` map: first occurrence of each datasetId. -/
def datasetIdsInOrder (ss : List BackupSentence) : List String :=
  ss.foldl (fun acc s => if acc.contains s.datasetId then acc else acc ++ [s.datasetId]) []

def backupIdLe (a b : BackupSentence) : Prop := strLe a.id b.id = true

instance : DecidableRel backupIdLe := fun a b => by
  unfold backupIdLe; infer_instance

def sortBackupById (l : List BackupSentence) : List BackupSentence :=
  List.insertionSort backupIdLe l

/-- One group of the upgrade branch of `importAllFromJSON`: the snapshot's
Sentences of one dataset, sorted by id, with the default deck and sequential
orders assigned. -/
def backupGroupRows (decks : List Deck) (ss : List BackupSentence) (dsId : String) :
    List SentenceRow :=
  (sortBackupById (ss.filter (fun s => s.datasetId == dsId))).enum.map (fun p =>
    { id := p.2.id, datasetId := p.2.datasetId,
      deckId := defaultDeckIdFor decks dsId, order := p.1,
      importId := p.2.importId.getD "legacy", sourceText := p.2.sourceText,
      targetText := p.2.targetText, transliterationText := p.2.transliterationText,
      glossText := p.2.glossText, tokenCount := p.2.tokenCount,
      legacyTarget := none, legacySource := none })

/-- The upgrade branch of `importAllFromJSON`: group the snapshot's Sentences
by dataset (in first-occurrence order), sort each group by id, and assign
the default deck and sequential orders. -/
def upgradeBackupSentences (decks : List Deck) (ss : List BackupSentence) :
    List SentenceRow :=
  (datasetIdsInOrder ss).flatMap (backupGroupRows decks ss)

/-- `importAllFromJSON` from `backup.ts`. -/
def importAllFromJSON (doc : BackupDoc) (now : ℚ) : DB :=
  let decks := ensureDecksForImport doc.datasets doc.decks
  let needsUpgrade := doc.sentences.any (fun s =>
    s.deckId.isNone || s.order.isNone || s.importId.isNone)
  let sentences := if needsUpgrade then upgradeBackupSentences decks doc.sentences
                   else doc.sentences.map toSentenceRow
  let pathProgress :=
    if doc.pathProgress.isEmpty then
      doc.datasets.map (fun ds =>
        let deckId := defaultDeckIdFor decks ds.id
        let legacy := findLegacyProgress doc.progress ds.id
        let linearOrder := (legacy.map (fun p => p.currentIndex)).getD 0
        { datasetId := ds.id, deckId := deckId, mode := StudyMode.linear,
          linearOrder := linearOrder, srsNewOrder := linearOrder,
          lifetimeReps := (legacy.map (fun p => p.lifetimeReps)).getD 0,
          lifetimeTokens := (legacy.map (fun p => p.lifetimeTokens)).getD 0,
          updatedAt := now })
    else doc.pathProgress
  let progress :=
    if doc.progress.isEmpty then
      doc.datasets.map (fun ds =>
        { datasetId := ds.id, lifetimeReps := 0, lifetimeTokens := 0,
          currentIndex := 0, updatedAt := now })
    else doc.progress
  { datasets := doc.datasets, decks := decks, imports := doc.imports,
    sentences := sentences, progress := progress, pathProgress := pathProgress,
    srs := doc.srs }

/-- The PathProgress row `importAllFromJSON` derives for one dataset when the
snapshot has no per-deck progress (the body of its `datasets.map` lambda). -/
def restoreDerivedPP (doc : BackupDoc) (now : ℚ) (ds : Dataset) : PathProgressRow :=
  { datasetId := ds.id,
    deckId := defaultDeckIdFor (ensureDecksForImport doc.datasets doc.decks) ds.id,
    mode := StudyMode.linear,
    linearOrder := ((findLegacyProgress doc.progress ds.id).map
      (fun p => p.currentIndex)).getD 0,
    srsNewOrder := ((findLegacyProgress doc.progress ds.id).map
      (fun p => p.currentIndex)).getD 0,
    lifetimeReps := ((findLegacyProgress doc.progress ds.id).map
      (fun p => p.lifetimeReps)).getD 0,
    lifetimeTokens := ((findLegacyProgress doc.progress ds.id).map
      (fun p => p.lifetimeTokens)).getD 0,
    updatedAt := now }

/-! ## Invariants -/

def deckCount (db : DB) (ds dk : String) : Nat := (sentencesOf db ds dk).length

def ordersOf (db : DB) (ds dk : String) : List Nat :=
  (sentencesOf db ds dk).map (fun s => s.order)

/-- Order density: the stored `order` values of a deck are exactly
`{0, ..., N-1}`, with no gaps and no duplicates. -/
def Dense (db : DB) (ds dk : String) : Prop :=
  List.Perm (ordersOf db ds dk) (List.range (deckCount db ds dk))

/-- Progress clamp: both pointers of every PathProgress row lie in
`[0, max(0, N-1)]` for the `N` of their deck (the lower bound is the type). -/
def PointerInv (db : DB) : Prop :=
  ∀ pp ∈ db.pathProgress,
    pp.linearOrder ≤ deckCount db pp.datasetId pp.deckId - 1 ∧
    pp.srsNewOrder ≤ deckCount db pp.datasetId pp.deckId - 1

instance (db : DB) (ds dk : String) : Decidable (Dense db ds dk) := by
  unfold Dense; exact List.decidablePerm _ _

instance (db : DB) : Decidable (PointerInv db) := by
  unfold PointerInv; exact List.decidableBAll _ _

/-! ## Concrete import/migration fixtures -/

/-- The canonical mapping the ImportPanel passes to every import. -/
def defaultMapping : ImportMapping :=
  { sourceKey := "english", targetKey := "target",
    translitKey := some "transliteration", glossKey := some "gloss",
    tokenKey := some "tokencount", idKey := some "id" }

/-- Deterministic stand-in for the `makeId("s")` supply: `"s"`, `"sx"`,
`"sxx"`, ... (injective, never collides with the fixture ids). -/
def freshIdSupply (i : Nat) : String := String.mk ('s' :: List.replicate i 'x')

def c6Prog : PathProgressRow :=
  { datasetId := "ds", deckId := "dk", mode := .linear, linearOrder := 0,
    srsNewOrder := 0, lifetimeReps := 0, lifetimeTokens := 0, updatedAt := 0 }

def c6DB : DB :=
  { datasets := [exDataset], decks := [exDeck], imports := [], sentences := [],
    progress := [], pathProgress := [c6Prog], srs := [] }

def c6Text : String :=
  "English\tTarget\nhello one\tx a\nhello two\tx b\nhello three\tx c"

def c6Result : Except String (DB × ImportOutcome) :=
  importCSVorTSV c6DB exDataset "dk" "file.tsv" c6Text '\t' defaultMapping
    ImportMode.append "imp1" freshIdSupply 0

def c6DB1 : DB := ((c6Result.toOption).map Prod.fst).getD c6DB

def c6After : DB × Nat := deleteImportBatch c6DB1 "ds" "dk" "imp1" 0

def c4Sent : SentenceRow :=
  { id := "a", datasetId := "ds", deckId := "dk", order := 0, importId := "imp0",
    sourceText := "old", targetText := "old row", transliterationText := none,
    glossText := none, tokenCount := 2, legacyTarget := none, legacySource := none }

def c4DB : DB :=
  { datasets := [exDataset], decks := [exDeck], imports := [], sentences := [c4Sent],
    progress := [], pathProgress := [c6Prog], srs := [] }

def c4Text : String := "English\tTarget\tId\nhi\tthere\ta"

def c4Result : Except String (DB × ImportOutcome) :=
  importCSVorTSV c4DB exDataset "dk" "file.tsv" c4Text '\t' defaultMapping
    ImportMode.append "imp1" freshIdSupply 0

def c4DB1 : DB := ((c4Result.toOption).map Prod.fst).getD c4DB

def c3V1 : V1DB :=
  { datasets := [exDataset]
    sentences :=
      [ { id := "a", datasetId := "ds", sourceText := "sa", targetText := "ta",
          transliterationText := none, glossText := none, tokenCount := 1 },
        { id := "b", datasetId := "ds", sourceText := "sb", targetText := "tb",
          transliterationText := none, glossText := none, tokenCount := 1 },
        { id := "c", datasetId := "ds", sourceText := "sc", targetText := "tc",
          transliterationText := none, glossText := none, tokenCount := 1 } ]
    progress :=
      [ { datasetId := "ds", lifetimeReps := 7, lifetimeTokens := 9,
          currentIndex := 5, updatedAt := 0 } ] }

def c3Mig : DB := upgradeV1toV2 c3V1 0

/-- Fallback outcome for extracting the payload of a known-successful import. -/
def c4wFallbackOut : ImportOutcome :=
  { imported := 0, headers := [], resolved := inferMappingFromHeaders [] defaultMapping }

def c4wOutA : ImportOutcome := ((c6Result.toOption).map Prod.snd).getD c4wFallbackOut

def c4wReplaceResult : Except String (DB × ImportOutcome) :=
  importCSVorTSV c6DB exDataset "dk" "file.tsv" c6Text '\t' defaultMapping
    ImportMode.replace "imp2" freshIdSupply 0

def c4wDBR : DB := ((c4wReplaceResult.toOption).map Prod.fst).getD c6DB

def c4wOutR : ImportOutcome := ((c4wReplaceResult.toOption).map Prod.snd).getD c4wFallbackOut

/-- A legacy backup snapshot: Sentences lacking `deckId`/`order`/`importId`,
no decks, no per-deck progress, one dataset-wide legacy progress record. -/
def c8Doc : BackupDoc :=
  { datasets := [exDataset]
    decks := []
    imports := []
    sentences :=
      [ { id := "b", datasetId := "ds", deckId := none, order := none, importId := none,
          sourceText := "sb", targetText := "tb", transliterationText := none,
          glossText := none, tokenCount := 1 },
        { id := "a", datasetId := "ds", deckId := none, order := none, importId := none,
          sourceText := "sa", targetText := "ta", transliterationText := none,
          glossText := none, tokenCount := 1 } ]
    progress :=
      [ { datasetId := "ds", lifetimeReps := 4, lifetimeTokens := 6,
          currentIndex := 1, updatedAt := 0 } ]
    pathProgress := []
    srs := [] }

/-! ## Theorems -/

/-! ### Upsert and filter lemmas -/

theorem find?_upsertBy {α : Type} (q : α → Bool) (l : List α) (p : α) (hq : q p = true) :
    (upsertBy q l p).find? q = some p := by
  unfold upsertBy
  by_cases h : l.any q
  · simp only [h, if_true]
    induction l with
    | nil => simp at h
    | cons a as ih =>
      by_cases ha : q a = true
      · simp [List.find?_cons, ha, hq]
      · have h' : as.any q = true := by
          simp only [List.any_cons, Bool.or_eq_true] at h
          rcases h with h | h
          · exact absurd h ha
          · exact h
        simpa [List.find?_cons, ha] using ih h'
  · have h0 : l.any q = false := by simpa using h
    simp only [h0, Bool.false_eq_true, if_false]
    rw [List.find?_append]
    have hnone : l.find? q = none := by
      rw [List.find?_eq_none]
      intro x hx hqx
      have : l.any q = true := List.any_eq_true.mpr ⟨x, hx, hqx⟩
      rw [h0] at this
      exact absurd this (by simp)
    simp [hnone, List.find?_cons, hq]

theorem mem_upsertBy {α : Type} (q : α → Bool) (l : List α) (p x : α)
    (hx : x ∈ upsertBy q l p) : x = p ∨ x ∈ l := by
  unfold upsertBy at hx
  by_cases h : l.any q
  · rw [if_pos h] at hx
    rcases List.mem_map.mp hx with ⟨y, hy, hxy⟩
    by_cases hqy : q y = true
    · left; rw [← hxy]; simp [hqy]
    · right; rw [← hxy]; simpa [hqy] using hy
  · rw [if_neg h] at hx
    rcases List.mem_append.mp hx with h1 | h1
    · right; exact h1
    · left; simpa using h1

theorem filter_map_congr_of_eq {α β : Type} (g : α → α) (pred : α → Bool) (f : α → β)
    (l : List α) (hpred : ∀ x ∈ l, pred (g x) = pred x)
    (hf : ∀ x ∈ l, pred x = true → f (g x) = f x) :
    ((l.map g).filter pred).map f = (l.filter pred).map f := by
  induction l with
  | nil => rfl
  | cons a as ih =>
    have hpa := hpred a (by simp)
    simp only [List.map_cons, List.filter_cons, hpa]
    by_cases hp : pred a = true
    · simp only [hp, if_true, List.map_cons]
      rw [hf a (by simp) hp]
      congr 1
      exact ih (fun x hx => hpred x (by simp [hx])) (fun x hx h => hf x (by simp [hx]) h)
    · simp only [hp, Bool.false_eq_true, if_false]
      exact ih (fun x hx => hpred x (by simp [hx])) (fun x hx h => hf x (by simp [hx]) h)

/-! ### Order properties of the code-point comparator -/

theorem char_eq_of_toNat_eq {a b : Char} (h : a.toNat = b.toNat) : a = b :=
  Char.eq_of_val_eq (UInt32.eq_of_toBitVec_eq (BitVec.eq_of_toNat_eq h))

theorem charListLe_total : ∀ a b : List Char, charListLe a b = true ∨ charListLe b a = true
  | [], _ => Or.inl rfl
  | _ :: _, [] => Or.inr rfl
  | a :: as, b :: bs => by
    simp only [charListLe]
    rcases Nat.lt_trichotomy a.toNat b.toNat with h | h | h
    · left; simp [h]
    · have hne : ¬ a.toNat < b.toNat := by omega
      have hne' : ¬ b.toNat < a.toNat := by omega
      rw [h]
      rcases charListLe_total as bs with ih | ih
      · left; simp [ih]
      · right; simp [ih]
    · right; simp [h, Nat.lt_asymm h]

theorem charListLe_trans : ∀ a b c : List Char, charListLe a b = true →
    charListLe b c = true → charListLe a c = true
  | [], _, _, _, _ => rfl
  | _ :: _, [], _, h, _ => by simp [charListLe] at h
  | _ :: _, _ :: _, [], _, h => by simp [charListLe] at h
  | a :: as, b :: bs, c :: cs, h1, h2 => by
    simp only [charListLe] at h1 h2 ⊢
    rcases Nat.lt_trichotomy a.toNat b.toNat with hab | hab | hab
    · rcases Nat.lt_trichotomy b.toNat c.toNat with hbc | hbc | hbc
      · simp [show a.toNat < c.toNat by omega]
      · simp [show a.toNat < c.toNat by omega]
      · rw [if_neg (by omega), if_pos (by omega)] at h2
        exact absurd h2 (by simp)
    · rcases Nat.lt_trichotomy b.toNat c.toNat with hbc | hbc | hbc
      · simp [show a.toNat < c.toNat by omega]
      · rw [if_neg (by omega), if_neg (by omega)] at h1 h2
        rw [if_neg (by omega), if_neg (by omega)]
        exact charListLe_trans as bs cs h1 h2
      · rw [if_neg (by omega), if_pos (by omega)] at h2
        exact absurd h2 (by simp)
    · rw [if_neg (by omega), if_pos hab] at h1
      exact absurd h1 (by simp)

theorem charListLe_antisymm : ∀ a b : List Char, charListLe a b = true →
    charListLe b a = true → a = b
  | [], [], _, _ => rfl
  | [], _ :: _, _, h => by simp [charListLe] at h
  | _ :: _, [], h, _ => by simp [charListLe] at h
  | a :: as, b :: bs, h1, h2 => by
    simp only [charListLe] at h1 h2
    rcases Nat.lt_trichotomy a.toNat b.toNat with hab | hab | hab
    · rw [if_neg (by omega), if_pos hab] at h2
      exact absurd h2 (by simp)
    · rw [if_neg (by omega), if_neg (by omega)] at h1 h2
      rw [char_eq_of_toNat_eq hab, charListLe_antisymm as bs h1 h2]
    · rw [if_neg (by omega), if_pos hab] at h1
      exact absurd h1 (by simp)

theorem strLe_total (a b : String) : strLe a b = true ∨ strLe b a = true :=
  charListLe_total a.data b.data

theorem strLe_trans {a b c : String} (h1 : strLe a b = true) (h2 : strLe b c = true) :
    strLe a c = true :=
  charListLe_trans a.data b.data c.data h1 h2

theorem strLe_antisymm {a b : String} (h1 : strLe a b = true) (h2 : strLe b a = true) :
    a = b := by
  cases a with
  | mk la =>
    cases b with
    | mk lb =>
      exact congrArg String.mk (charListLe_antisymm la lb h1 h2)

instance : IsTotal SentenceRow sentenceLe :=
  ⟨by
    intro a b
    unfold sentenceLe
    rcases Nat.lt_trichotomy a.order b.order with h | h | h
    · exact Or.inl (Or.inl h)
    · rcases strLe_total a.id b.id with h2 | h2
      · exact Or.inl (Or.inr ⟨h, h2⟩)
      · exact Or.inr (Or.inr ⟨h.symm, h2⟩)
    · exact Or.inr (Or.inl h)⟩

instance : IsTrans SentenceRow sentenceLe :=
  ⟨by
    intro a b c hab hbc
    unfold sentenceLe at *
    rcases hab with hab | ⟨hab, hab'⟩ <;> rcases hbc with hbc | ⟨hbc, hbc'⟩
    · exact Or.inl (hab.trans hbc)
    · exact Or.inl (hbc ▸ hab)
    · exact Or.inl (hab ▸ hbc)
    · exact Or.inr ⟨hab.trans hbc, strLe_trans hab' hbc'⟩⟩

instance : IsTotal V1Sentence v1IdLe :=
  ⟨fun a b => strLe_total a.id b.id⟩

instance : IsTrans V1Sentence v1IdLe :=
  ⟨fun _ _ _ hab hbc => strLe_trans hab hbc⟩

instance : IsTotal BackupSentence backupIdLe :=
  ⟨fun a b => strLe_total a.id b.id⟩

instance : IsTrans BackupSentence backupIdLe :=
  ⟨fun _ _ _ hab hbc => strLe_trans hab hbc⟩

/-- Every member of a pairwise-related list is its last element or related to
it. -/
theorem pairwise_rel_getLast? {α : Type} {r : α → α → Prop} :
    ∀ (l : List α), l.Pairwise r → ∀ m, l.getLast? = some m → ∀ x ∈ l, x = m ∨ r x m
  | [] => by simp
  | [a] => by
    intro _ m hm x hx
    simp at hm hx
    subst hm hx
    exact Or.inl rfl
  | a :: b :: t => by
    intro hp m hm x hx
    rw [List.getLast?_cons_cons] at hm
    rcases List.mem_cons.mp hx with rfl | hx'
    · right
      exact (List.pairwise_cons.mp hp).1 m (List.mem_of_getLast?_eq_some hm)
    · exact pairwise_rel_getLast? (b :: t) (List.pairwise_cons.mp hp).2 m hm x hx'

/-! ### Bulk-upsert characterization -/

theorem putSentence_fresh (l : List SentenceRow) (m : SentenceRow)
    (h : ¬ m.id ∈ l.map (fun s => s.id)) : putSentence l m = l ++ [m] := by
  unfold putSentence upsertBy
  have hany : l.any (fun x => x.id == m.id) = false := by
    rw [List.any_eq_false]
    intro x hx
    simp only [beq_iff_eq]
    intro hxe
    exact h (List.mem_map.mpr ⟨x, hx, hxe⟩)
  simp [hany]

theorem bulkPutSentences_fresh (ms : List SentenceRow) : ∀ (l : List SentenceRow),
    (∀ m ∈ ms, ¬ m.id ∈ l.map (fun s => s.id)) →
    (ms.map (fun s => s.id)).Nodup →
    bulkPutSentences l ms = l ++ ms := by
  induction ms with
  | nil => intro l _ _; simp [bulkPutSentences]
  | cons m ms' ih =>
    intro l hdisj hnd
    have hstep : bulkPutSentences l (m :: ms') =
        bulkPutSentences (putSentence l m) ms' := rfl
    rw [hstep, putSentence_fresh l m (hdisj m (by simp))]
    have hdisj' : ∀ m' ∈ ms', ¬ m'.id ∈ (l ++ [m]).map (fun s => s.id) := by
      intro m' hm' hmem
      rw [List.map_append, List.mem_append] at hmem
      rcases hmem with hmem | hmem
      · exact hdisj m' (by simp [hm']) hmem
      · simp only [List.map_cons, List.map_nil, List.mem_singleton] at hmem
        exact (List.nodup_cons.mp hnd).1 (List.mem_map.mpr ⟨m', hm', hmem⟩)
    rw [ih (l ++ [m]) hdisj' (List.nodup_cons.mp hnd).2]
    simp

theorem putSentence_keyed (l : List SentenceRow) (m : SentenceRow)
    (h : m.id ∈ l.map (fun s => s.id)) :
    putSentence l m = l.map (fun x => if x.id == m.id then m else x) := by
  unfold putSentence upsertBy
  have hany : l.any (fun x => x.id == m.id) = true := by
    rcases List.mem_map.mp h with ⟨x, hx, hxe⟩
    exact List.any_eq_true.mpr ⟨x, hx, by simp [hxe]⟩
  simp [hany]

theorem bulkPutSentences_keyed (ms : List SentenceRow) : ∀ (l : List SentenceRow),
    (ms.map (fun s => s.id)).Nodup →
    (∀ m ∈ ms, m.id ∈ l.map (fun s => s.id)) →
    bulkPutSentences l ms =
      l.map (fun x => ((ms.find? (fun m => m.id == x.id)).getD x)) := by
  induction ms with
  | nil =>
    intro l _ _
    simp [bulkPutSentences]
  | cons m ms' ih =>
    intro l hmsnd hsub
    have hstep : bulkPutSentences l (m :: ms') =
        bulkPutSentences (putSentence l m) ms' := rfl
    rw [hstep, putSentence_keyed l m (hsub m (by simp))]
    have hid : ∀ x : SentenceRow, ((if x.id == m.id then m else x) : SentenceRow).id = x.id := by
      intro x
      by_cases hxm : (x.id == m.id) = true
      · simp only [hxm, if_true]
        exact (beq_iff_eq.mp hxm).symm
      · simp [hxm]
    have hmapid : (l.map (fun x => if x.id == m.id then m else x)).map (fun s => s.id) =
        l.map (fun s => s.id) := by
      rw [List.map_map]
      exact List.map_congr_left (fun x _ => hid x)
    have hsub' : ∀ m' ∈ ms',
        m'.id ∈ (l.map (fun x => if x.id == m.id then m else x)).map (fun s => s.id) := by
      intro m' hm'
      rw [hmapid]
      exact hsub m' (by simp [hm'])
    rw [ih _ (List.nodup_cons.mp hmsnd).2 hsub']
    rw [List.map_map]
    apply List.map_congr_left
    intro x _
    show (ms'.find? (fun q => q.id ==
        ((if x.id == m.id then m else x) : SentenceRow).id)).getD
        ((if x.id == m.id then m else x) : SentenceRow) =
      ((m :: ms').find? (fun q => q.id == x.id)).getD x
    rw [hid x]
    by_cases hxm : (x.id == m.id) = true
    · have hxe : x.id = m.id := beq_iff_eq.mp hxm
      rw [if_pos hxm]
      have hnone : ms'.find? (fun q => q.id == x.id) = none := by
        rw [List.find?_eq_none]
        intro q hq hqe
        have : m.id ∈ ms'.map (fun s => s.id) :=
          List.mem_map.mpr ⟨q, hq, by rw [beq_iff_eq.mp hqe, hxe]⟩
        exact (List.nodup_cons.mp hmsnd).1 this
      have hpos : (fun q : SentenceRow => q.id == x.id) m = true := by simp [hxe]
      rw [hnone, show List.find? (fun q : SentenceRow => q.id == x.id) (m :: ms') = some m from
        List.find?_cons_of_pos _ hpos]
      rfl
    · rw [if_neg hxm]
      have hm : ¬ ((fun q : SentenceRow => q.id == x.id) m = true) := by
        simp only [beq_iff_eq]
        intro he
        exact hxm (beq_iff_eq.mpr he.symm)
      rw [show List.find? (fun q : SentenceRow => q.id == x.id) (m :: ms') =
        List.find? (fun q : SentenceRow => q.id == x.id) ms' from
        List.find?_cons_of_neg _ hm]

theorem filter_map_comm_of_pred {α : Type} (g : α → α) (pred : α → Bool) (l : List α)
    (h : ∀ x ∈ l, pred (g x) = pred x) :
    (l.map g).filter pred = (l.filter pred).map g := by
  induction l with
  | nil => rfl
  | cons a as ih =>
    simp only [List.map_cons, List.filter_cons, h a (by simp)]
    by_cases hp : pred a = true
    · simp only [hp, if_true, List.map_cons]
      rw [ih (fun x hx => h x (by simp [hx]))]
    · simp only [hp, Bool.false_eq_true, if_false]
      exact ih (fun x hx => h x (by simp [hx]))

theorem find?_id_unique (ms : List SentenceRow) (m : SentenceRow)
    (hnd : (ms.map (fun s => s.id)).Nodup) (hm : m ∈ ms) :
    ms.find? (fun q => q.id == m.id) = some m := by
  induction ms with
  | nil => simp at hm
  | cons a as ih =>
    rcases List.mem_cons.mp hm with rfl | hm'
    · rw [show List.find? (fun q : SentenceRow => q.id == m.id) (m :: as) = some m from
        List.find?_cons_of_pos _ (by simp)]
    · by_cases ha : (a.id == m.id) = true
      · have : a.id ∈ as.map (fun s => s.id) :=
          List.mem_map.mpr ⟨m, hm', (beq_iff_eq.mp ha).symm⟩
        exact absurd this (List.nodup_cons.mp hnd).1
      · rw [show List.find? (fun q : SentenceRow => q.id == m.id) (a :: as) =
          List.find? (fun q : SentenceRow => q.id == m.id) as from
          List.find?_cons_of_neg _ (by simpa using ha)]
        exact ih (List.nodup_cons.mp hnd).2 hm'

/-! ### Membership, count and density utilities -/

theorem mem_of_head?_eq_some {α : Type} {l : List α} {a : α} (h : l.head? = some a) :
    a ∈ l := by
  cases l with
  | nil => simp at h
  | cons b t =>
    simp only [List.head?_cons, Option.some.injEq] at h
    subst h
    exact List.mem_cons_self _ _

theorem getPathProgress_mem {db : DB} {ds dk : String} {pp : PathProgressRow}
    (h : getPathProgress db ds dk = some pp) :
    pp ∈ db.pathProgress ∧ pp.datasetId = ds ∧ pp.deckId = dk := by
  unfold getPathProgress at h
  have hmem := List.mem_of_find?_eq_some h
  have hq := List.find?_some h
  simp only [Bool.and_eq_true, beq_iff_eq] at hq
  exact ⟨hmem, hq.1, hq.2⟩

theorem mem_sentencesOf {db : DB} {ds dk : String} {s : SentenceRow}
    (h : s ∈ sentencesOf db ds dk) :
    s ∈ db.sentences ∧ s.datasetId = ds ∧ s.deckId = dk := by
  unfold sentencesOf at h
  have hmem := List.mem_of_mem_filter h
  have hq := List.of_mem_filter h
  simp only [Bool.and_eq_true, beq_iff_eq] at hq
  exact ⟨hmem, hq.1, hq.2⟩

theorem mem_sortSentences {l : List SentenceRow} {s : SentenceRow} :
    s ∈ sortSentences l ↔ s ∈ l :=
  (List.perm_insertionSort sentenceLe l).mem_iff

theorem mem_orderedSentences {db : DB} {ds dk : String} {s : SentenceRow} :
    s ∈ orderedSentences db ds dk ↔ s ∈ sentencesOf db ds dk :=
  mem_sortSentences

theorem getByOrder_order_mem {db : DB} {ds dk : String} {o : Nat} {s : SentenceRow}
    (h : getByOrder db ds dk o = some s) : o ∈ ordersOf db ds dk := by
  unfold getByOrder at h
  have hmem : s ∈ sortSentences ((sentencesOf db ds dk).filter (fun s => s.order == o)) :=
    mem_of_head?_eq_some h
  rw [mem_sortSentences] at hmem
  have horder := List.of_mem_filter hmem
  have hm2 := List.mem_of_mem_filter hmem
  rw [beq_iff_eq] at horder
  exact List.mem_map.mpr ⟨s, hm2, horder⟩

theorem dense_order_le {db : DB} {ds dk : String} {o : Nat}
    (hdense : Dense db ds dk) (ho : o ∈ ordersOf db ds dk) :
    o ≤ deckCount db ds dk - 1 := by
  have h := hdense.mem_iff.mp ho
  rw [List.mem_range] at h
  omega

theorem deckCount_congr {db db' : DB} (h : db'.sentences = db.sentences) (ds dk : String) :
    deckCount db' ds dk = deckCount db ds dk := by
  unfold deckCount sentencesOf
  rw [h]

theorem ordersOf_congr {db db' : DB} (h : db'.sentences = db.sentences) (ds dk : String) :
    ordersOf db' ds dk = ordersOf db ds dk := by
  unfold ordersOf sentencesOf
  rw [h]

theorem dense_congr {db db' : DB} (h : db'.sentences = db.sentences) (ds dk : String)
    (hd : Dense db ds dk) : Dense db' ds dk := by
  unfold Dense
  rw [ordersOf_congr h, deckCount_congr h]
  exact hd

theorem dense_of_counts {db db' : DB} {ds dk : String}
    (hor : ordersOf db' ds dk = ordersOf db ds dk)
    (hcnt : deckCount db' ds dk = deckCount db ds dk)
    (hd : Dense db ds dk) : Dense db' ds dk := by
  unfold Dense
  rw [hor, hcnt]
  exact hd

theorem dense_of_empty {db : DB} {ds dk : String} (h : sentencesOf db ds dk = []) :
    Dense db ds dk := by
  unfold Dense ordersOf deckCount
  rw [h]
  exact List.Perm.nil

theorem pointerInv_of_counts {db db' : DB}
    (hcnt : ∀ a b, deckCount db' a b = deckCount db a b)
    (hp : db'.pathProgress = db.pathProgress) (hinv : PointerInv db) : PointerInv db' := by
  intro q hq
  rw [hp] at hq
  rw [hcnt]
  exact hinv q hq

theorem pointerInv_put {db db' : DB} (nr : PathProgressRow)
    (hcnt : ∀ a b, deckCount db' a b = deckCount db a b)
    (hp : db'.pathProgress = putPathProgress db.pathProgress nr)
    (hinv : PointerInv db)
    (hlin : nr.linearOrder ≤ deckCount db nr.datasetId nr.deckId - 1)
    (hsrs : nr.srsNewOrder ≤ deckCount db nr.datasetId nr.deckId - 1) :
    PointerInv db' := by
  intro q hq
  rw [hp] at hq
  rw [hcnt]
  rcases mem_upsertBy _ _ _ _ hq with rfl | hq'
  · exact ⟨hlin, hsrs⟩
  · exact hinv q hq'

theorem deckCount_map_key_preserving (db : DB) (g : SentenceRow → SentenceRow)
    (hfields : ∀ x ∈ db.sentences, (g x).datasetId = x.datasetId ∧ (g x).deckId = x.deckId)
    (a b : String) :
    sentencesOf { db with sentences := db.sentences.map g } a b =
      (sentencesOf db a b).map g ∧
    deckCount { db with sentences := db.sentences.map g } a b = deckCount db a b := by
  have hpred : ∀ x ∈ db.sentences,
      (((g x).datasetId == a && (g x).deckId == b) : Bool) =
      ((x.datasetId == a && x.deckId == b) : Bool) := by
    intro x hx
    rw [(hfields x hx).1, (hfields x hx).2]
  constructor
  · show (db.sentences.map g).filter _ = _
    exact filter_map_comm_of_pred g _ db.sentences hpred
  · show ((db.sentences.map g).filter _).length = _
    rw [filter_map_comm_of_pred g _ db.sentences hpred, List.length_map]
    rfl

theorem ordersOf_map_key_preserving (db : DB) (g : SentenceRow → SentenceRow)
    (hfields : ∀ x ∈ db.sentences, (g x).datasetId = x.datasetId ∧
      (g x).deckId = x.deckId ∧ (g x).order = x.order) (a b : String) :
    ordersOf { db with sentences := db.sentences.map g } a b = ordersOf db a b ∧
    deckCount { db with sentences := db.sentences.map g } a b = deckCount db a b := by
  obtain ⟨hsof, hcnt⟩ := deckCount_map_key_preserving db g
    (fun x hx => ⟨(hfields x hx).1, (hfields x hx).2.1⟩) a b
  refine ⟨?_, hcnt⟩
  show (sentencesOf { db with sentences := db.sentences.map g } a b).map (fun s => s.order) = _
  rw [hsof, List.map_map]
  apply List.map_congr_left
  intro x hx
  exact (hfields x (mem_sentencesOf hx).1).2.2

theorem putSentence_ordersOf (db : DB) (p x0 : SentenceRow)
    (hnd : (db.sentences.map (fun s => s.id)).Nodup)
    (hx0 : x0 ∈ db.sentences) (hid : p.id = x0.id)
    (hds : p.datasetId = x0.datasetId) (hdk : p.deckId = x0.deckId)
    (hord : p.order = x0.order) (a b : String) :
    ordersOf { db with sentences := putSentence db.sentences p } a b = ordersOf db a b ∧
    deckCount { db with sentences := putSentence db.sentences p } a b = deckCount db a b := by
  rw [putSentence_keyed db.sentences p (by rw [hid]; exact List.mem_map.mpr ⟨x0, hx0, rfl⟩)]
  refine ordersOf_map_key_preserving db _ ?_ a b
  intro x hx
  by_cases hxe : (x.id == p.id) = true
  · have hxx0 : x = x0 :=
      List.inj_on_of_nodup_map hnd hx hx0 ((beq_iff_eq.mp hxe).trans hid)
    rw [if_pos hxe, hds, hdk, hord, hxx0]
    exact ⟨rfl, rfl, rfl⟩
  · rw [if_neg hxe]
    exact ⟨rfl, rfl, rfl⟩

/-- When the studied row is a stored row and ids are unique, the
`ensureTokenCountForRow` patch replaces that row in place: every deck keeps
its row count and its multiset of `order` values. -/
theorem ensure_ordersOf (dataset : Option Dataset) (db : DB) (r : SentenceRow)
    (hnd : (db.sentences.map (fun s => s.id)).Nodup) (hr : r ∈ db.sentences)
    (a b : String) :
    ordersOf (ensureTokenCountForRow dataset db r).2 a b = ordersOf db a b ∧
    deckCount (ensureTokenCountForRow dataset db r).2 a b = deckCount db a b := by
  cases dataset with
  | none => exact ⟨rfl, rfl⟩
  | some d =>
    simp only [ensureTokenCountForRow]
    split
    · exact putSentence_ordersOf db
        { r with targetText := effTargetText r, sourceText := effSourceText r,
                 tokenCount := countTokens (effTargetText r) d.cjkMode }
        r hnd hr rfl rfl rfl rfl a b
    · exact ⟨rfl, rfl⟩

/-! ### `ensureTokenCountForRow` and `pickCurrent` lemmas -/

theorem getSentenceById_put (db : DB) (p : SentenceRow) :
    getSentenceById { db with sentences := putSentence db.sentences p } p.id = some p := by
  unfold getSentenceById putSentence
  exact find?_upsertBy _ _ _ (by simp)

theorem getPathProgress_update (db : DB) (p : PathProgressRow) :
    getPathProgress { db with pathProgress := putPathProgress db.pathProgress p }
      p.datasetId p.deckId = some p := by
  unfold getPathProgress putPathProgress
  exact find?_upsertBy _ _ _ (by simp)

theorem ensure_fst (ds : Dataset) (db : DB) (r : SentenceRow) :
    (ensureTokenCountForRow (some ds) db r).1 =
      countTokens (effTargetText r) ds.cjkMode := by
  simp only [ensureTokenCountForRow]
  split
  · rfl
  · next hcond =>
    push_neg at hcond
    exact hcond.2.2

theorem ensure_tables (dataset : Option Dataset) (db : DB) (r : SentenceRow) :
    (ensureTokenCountForRow dataset db r).2.pathProgress = db.pathProgress ∧
    (ensureTokenCountForRow dataset db r).2.srs = db.srs ∧
    (ensureTokenCountForRow dataset db r).2.imports = db.imports ∧
    (ensureTokenCountForRow dataset db r).2.progress = db.progress ∧
    (ensureTokenCountForRow dataset db r).2.decks = db.decks ∧
    (ensureTokenCountForRow dataset db r).2.datasets = db.datasets := by
  cases dataset with
  | none => exact ⟨rfl, rfl, rfl, rfl, rfl, rfl⟩
  | some ds =>
    simp only [ensureTokenCountForRow]
    split
    · exact ⟨rfl, rfl, rfl, rfl, rfl, rfl⟩
    · exact ⟨rfl, rfl, rfl, rfl, rfl, rfl⟩

theorem ensure_getById (ds : Dataset) (db : DB) (r : SentenceRow)
    (hfound : getSentenceById db r.id = some r) :
    (getSentenceById (ensureTokenCountForRow (some ds) db r).2 r.id).map
      (fun s => s.tokenCount) = some (countTokens (effTargetText r) ds.cjkMode) := by
  simp only [ensureTokenCountForRow]
  split
  · next hcond =>
    have h := getSentenceById_put db
      { r with targetText := effTargetText r, sourceText := effSourceText r,
               tokenCount := countTokens (effTargetText r) ds.cjkMode }
    rw [h]
    rfl
  · next hcond =>
    push_neg at hcond
    rw [hfound]
    simp [hcond.2.2]

theorem pickCurrent_srs_tables (st : AppState) (now : ℚ) (pp : PathProgressRow)
    (hpp : getPathProgress st.db st.datasetId st.deckId = some pp)
    (hmode : pp.mode = .srs) :
    (pickCurrent st now).db.sentences = st.db.sentences ∧
    (pickCurrent st now).db.pathProgress = st.db.pathProgress := by
  unfold pickCurrent
  by_cases hguard : (st.datasetId == "" || st.deckId == "") = true
  · rw [if_pos hguard]; exact ⟨rfl, rfl⟩
  · rw [if_neg hguard, hpp]
    cases hdue : (dueSorted st.db st.datasetId st.deckId now).head? with
    | some s => simp [hmode, hdue]
    | none =>
      cases hgo : getByOrder st.db st.datasetId st.deckId pp.srsNewOrder with
      | none => simp [hmode, hdue, hgo]
      | some fresh =>
        cases hsrs : getSRS st.db st.datasetId st.deckId fresh.id with
        | some existing => simp [hmode, hdue, hgo, hsrs]
        | none => simp [hmode, hdue, hgo, hsrs]

theorem getPathProgress_find (l : List PathProgressRow) (p : PathProgressRow)
    (a b : String) (ha : p.datasetId = a) (hb : p.deckId = b) :
    (putPathProgress l p).find? (fun x => x.datasetId == a && x.deckId == b) = some p := by
  subst ha hb
  unfold putPathProgress
  exact find?_upsertBy _ _ _ (by simp)

theorem getPathProgress_update' (db : DB) (p : PathProgressRow) (a b : String)
    (ha : p.datasetId = a) (hb : p.deckId = b) :
    getPathProgress { db with pathProgress := putPathProgress db.pathProgress p } a b =
      some p := by
  unfold getPathProgress
  exact getPathProgress_find db.pathProgress p a b ha hb

theorem bumpNextProg_fields (pp : PathProgressRow) (nextOrder t : Nat) (now : ℚ) :
    (bumpNextProg pp nextOrder true t now).datasetId = pp.datasetId ∧
    (bumpNextProg pp nextOrder true t now).deckId = pp.deckId ∧
    (bumpNextProg pp nextOrder true t now).lifetimeTokens = pp.lifetimeTokens + t := by
  unfold bumpNextProg
  refine ⟨rfl, rfl, ?_⟩
  simp

theorem rateSRSNextProg_fields (st : AppState) (pp : PathProgressRow) (t : Nat)
    (now : ℚ) :
    (rateSRSNextProg st pp t now).datasetId = pp.datasetId ∧
    (rateSRSNextProg st pp t now).deckId = pp.deckId ∧
    (rateSRSNextProg st pp t now).mode = pp.mode ∧
    (rateSRSNextProg st pp t now).lifetimeTokens = pp.lifetimeTokens + t := by
  unfold rateSRSNextProg
  exact ⟨rfl, rfl, rfl, rfl⟩

theorem rateSRS_shape (st : AppState) (pp : PathProgressRow) (r : SentenceRow)
    (rating : Rating) (now : ℚ)
    (hguardn : ¬ ((st.datasetId == "" || st.deckId == "") = true))
    (hpp : st.pathProg = some pp) (hrow : st.row = some r) :
    rateSRS st rating now = pickCurrent (rateSRSPostState st pp r rating now) now := by
  unfold rateSRS rateSRSPostState
  rw [if_neg hguardn, hpp, hrow]

theorem rateSRSPostState_pp (st : AppState) (pp : PathProgressRow) (r : SentenceRow)
    (rating : Rating) (now : ℚ) (hkds : pp.datasetId = st.datasetId)
    (hkdk : pp.deckId = st.deckId) :
    getPathProgress (rateSRSPostState st pp r rating now).db
      (rateSRSPostState st pp r rating now).datasetId
      (rateSRSPostState st pp r rating now).deckId =
    some (rateSRSNextProg st pp (ensureTokenCountForRow st.dataset st.db r).1 now) := by
  unfold rateSRSPostState getPathProgress
  exact getPathProgress_find _ _ _ _
    ((rateSRSNextProg_fields st pp _ now).1.trans hkds)
    ((rateSRSNextProg_fields st pp _ now).2.1.trans hkdk)

/-! ### Pointer-invariant preservation by the scheduler operations -/

theorem pickCurrent_pointerInv (st : AppState) (now : ℚ)
    (hinv : PointerInv st.db) (hdense : Dense st.db st.datasetId st.deckId) :
    PointerInv (pickCurrent st now).db := by
  unfold pickCurrent
  by_cases hguard : (st.datasetId == "" || st.deckId == "") = true
  · rw [if_pos hguard]; exact hinv
  · rw [if_neg hguard]
    cases hpp : getPathProgress st.db st.datasetId st.deckId with
    | none => exact hinv
    | some pp =>
      obtain ⟨hppmem, hppds, hppdk⟩ := getPathProgress_mem hpp
      cases hmode : pp.mode with
      | srs =>
        cases hdue : (dueSorted st.db st.datasetId st.deckId now).head? with
        | some s => simp only [hmode, hdue]; exact hinv
        | none =>
          cases hgo : getByOrder st.db st.datasetId st.deckId pp.srsNewOrder with
          | none => simp only [hmode, hdue, hgo]; exact hinv
          | some fresh =>
            cases hsrs : getSRS st.db st.datasetId st.deckId fresh.id with
            | some existing => simp only [hmode, hdue, hgo, hsrs]; exact hinv
            | none => simp only [hmode, hdue, hgo, hsrs]; exact hinv
      | linear =>
        have hbound : ∀ c : SentenceRow,
            c ∈ orderedSentences st.db st.datasetId st.deckId →
            c.order ≤ deckCount st.db pp.datasetId pp.deckId - 1 := by
          intro c hc
          rw [hppds, hppdk]
          exact dense_order_le hdense
            (List.mem_map.mpr ⟨c, (mem_orderedSentences.mp hc), rfl⟩)
        cases hgo : getByOrder st.db st.datasetId st.deckId pp.linearOrder with
        | some current => simp only [hmode, hgo]; exact hinv
        | none =>
          cases hlast : (orderedSentences st.db st.datasetId st.deckId).getLast? with
          | none =>
            cases hhead : (orderedSentences st.db st.datasetId st.deckId).head? with
            | none =>
              simp only [hmode, hgo, hlast, hhead]
              exact hinv
            | some c =>
              simp only [hmode, hgo, hlast, hhead]
              refine pointerInv_put
                { pp with mode := StudyMode.linear, linearOrder := c.order,
                          updatedAt := now } ?_ ?_ hinv ?_ ?_
              · exact fun a b => rfl
              · rfl
              · exact hbound c (mem_of_head?_eq_some hhead)
              · exact (hinv pp hppmem).2
          | some lastRow =>
            by_cases hgt : pp.linearOrder > lastRow.order
            · simp only [hmode, hgo, hlast, if_pos hgt]
              refine pointerInv_put
                { pp with mode := StudyMode.linear, linearOrder := lastRow.order,
                          updatedAt := now } ?_ ?_ hinv ?_ ?_
              · exact fun a b => rfl
              · rfl
              · exact hbound lastRow (List.mem_of_getLast?_eq_some hlast)
              · exact (hinv pp hppmem).2
            · cases hhead : (orderedSentences st.db st.datasetId st.deckId).head? with
              | none =>
                simp only [hmode, hgo, hlast, if_neg hgt, hhead]
                exact hinv
              | some c =>
                simp only [hmode, hgo, hlast, if_neg hgt, hhead]
                refine pointerInv_put
                  { pp with mode := StudyMode.linear, linearOrder := c.order,
                            updatedAt := now } ?_ ?_ hinv ?_ ?_
                · exact fun a b => rfl
                · rfl
                · exact hbound c (mem_of_head?_eq_some hhead)
                · exact (hinv pp hppmem).2

theorem bumpLinear_pointerInv (st : AppState) (delta : Int) (countRep : Bool) (now : ℚ)
    (pp : PathProgressRow) (r : SentenceRow)
    (hpp : st.pathProg = some pp) (hppmem : pp ∈ st.db.pathProgress)
    (hppds : pp.datasetId = st.datasetId) (hppdk : pp.deckId = st.deckId)
    (hrow : st.row = some r) (hrmem : r ∈ st.db.sentences)
    (hnd : (st.db.sentences.map (fun s => s.id)).Nodup)
    (hdense : Dense st.db st.datasetId st.deckId)
    (hinv : PointerInv st.db) :
    PointerInv (bumpLinear st delta countRep now).db := by
  by_cases hguard : (st.datasetId == "" || st.deckId == "") = true
  · unfold bumpLinear; rw [if_pos hguard]; exact hinv
  · cases countRep with
    | false =>
      cases hnext : getByOrder st.db st.datasetId st.deckId
          ((max 0 ((pp.linearOrder : Int) + delta)).toNat) with
      | none =>
        have hdb : (bumpLinear st delta false now).db = st.db := by
          unfold bumpLinear
          rw [if_neg hguard, hpp, hrow]
          simp only [hnext]
        rw [hdb]
        exact hinv
      | some next =>
        have hdb : (bumpLinear st delta false now).db =
            { st.db with
              pathProgress := putPathProgress st.db.pathProgress
                (bumpNextProg pp ((max 0 ((pp.linearOrder : Int) + delta)).toNat)
                  false 0 now) } := by
          unfold bumpLinear
          rw [if_neg hguard, hpp, hrow]
          simp only [hnext]
        rw [hdb]
        have hno : ((max 0 ((pp.linearOrder : Int) + delta)).toNat) ≤
            deckCount st.db st.datasetId st.deckId - 1 :=
          dense_order_le hdense (getByOrder_order_mem hnext)
        rw [← hppds, ← hppdk] at hno
        refine pointerInv_put
          (bumpNextProg pp ((max 0 ((pp.linearOrder : Int) + delta)).toNat) false 0 now)
          ?_ ?_ hinv ?_ ?_
        · exact fun a b => rfl
        · rfl
        · exact hno
        · exact max_le ((hinv pp hppmem).2) hno
    | true =>
      cases hnext : getByOrder (ensureTokenCountForRow st.dataset st.db r).2
          st.datasetId st.deckId ((max 0 ((pp.linearOrder : Int) + delta)).toNat) with
      | none =>
        have hdb : (bumpLinear st delta true now).db =
            (ensureTokenCountForRow st.dataset st.db r).2 := by
          unfold bumpLinear
          rw [if_neg hguard, hpp, hrow]
          simp only [hnext]
        rw [hdb]
        exact pointerInv_of_counts
          (fun a b => (ensure_ordersOf st.dataset st.db r hnd hrmem a b).2)
          (ensure_tables st.dataset st.db r).1 hinv
      | some next =>
        have hdb : (bumpLinear st delta true now).db =
            { (ensureTokenCountForRow st.dataset st.db r).2 with
              pathProgress := putPathProgress
                (ensureTokenCountForRow st.dataset st.db r).2.pathProgress
                (bumpNextProg pp ((max 0 ((pp.linearOrder : Int) + delta)).toNat) true
                  (ensureTokenCountForRow st.dataset st.db r).1 now) } := by
          unfold bumpLinear
          rw [if_neg hguard, hpp, hrow]
          simp only [hnext]
        rw [hdb]
        have hno : ((max 0 ((pp.linearOrder : Int) + delta)).toNat) ≤
            deckCount st.db st.datasetId st.deckId - 1 := by
          refine dense_order_le hdense ?_
          have h1 := getByOrder_order_mem hnext
          rw [(ensure_ordersOf st.dataset st.db r hnd hrmem _ _).1] at h1
          exact h1
        rw [← hppds, ← hppdk] at hno
        refine pointerInv_put
          (bumpNextProg pp ((max 0 ((pp.linearOrder : Int) + delta)).toNat) true
            (ensureTokenCountForRow st.dataset st.db r).1 now)
          ?_ ?_ hinv ?_ ?_
        · exact fun a b => (ensure_ordersOf st.dataset st.db r hnd hrmem a b).2
        · show putPathProgress (ensureTokenCountForRow st.dataset st.db r).2.pathProgress _ =
            putPathProgress st.db.pathProgress _
          rw [(ensure_tables st.dataset st.db r).1]
        · exact hno
        · exact max_le ((hinv pp hppmem).2) hno

theorem rateSRS_pointerInv (st : AppState) (rating : Rating) (now : ℚ)
    (pp : PathProgressRow) (r : SentenceRow)
    (hpp : st.pathProg = some pp) (hppmem : pp ∈ st.db.pathProgress)
    (hppds : pp.datasetId = st.datasetId) (hppdk : pp.deckId = st.deckId)
    (hrow : st.row = some r) (hrmem : r ∈ st.db.sentences)
    (hsrs : st.srsRow.isSome = true)
    (hnd : (st.db.sentences.map (fun s => s.id)).Nodup)
    (hdense : Dense st.db st.datasetId st.deckId)
    (hinv : PointerInv st.db) :
    PointerInv (rateSRS st rating now).db := by
  by_cases hguard : (st.datasetId == "" || st.deckId == "") = true
  · unfold rateSRS; rw [if_pos hguard]; exact hinv
  · rw [rateSRS_shape st pp r rating now hguard hpp hrow]
    have hEpp := (ensure_tables st.dataset st.db r).1
    have hpinv : PointerInv (rateSRSPostState st pp r rating now).db := by
      refine pointerInv_put
        (rateSRSNextProg st pp (ensureTokenCountForRow st.dataset st.db r).1 now)
        ?_ ?_ hinv ?_ ?_
      · exact fun a b => (ensure_ordersOf st.dataset st.db r hnd hrmem a b).2
      · show putPathProgress (ensureTokenCountForRow st.dataset st.db r).2.pathProgress _ =
          putPathProgress st.db.pathProgress _
        rw [hEpp]
      · exact (hinv pp hppmem).1
      · have h2 := (hinv pp hppmem).2
        show (if st.srsRow.isSome = true then pp.srsNewOrder else pp.srsNewOrder + 1) ≤
          deckCount st.db pp.datasetId pp.deckId - 1
        rw [hsrs]
        simpa using h2
    have hpdense : Dense (rateSRSPostState st pp r rating now).db
        (rateSRSPostState st pp r rating now).datasetId
        (rateSRSPostState st pp r rating now).deckId := by
      refine dense_of_counts ?_ ?_ hdense
      · exact (ensure_ordersOf st.dataset st.db r hnd hrmem st.datasetId st.deckId).1
      · exact (ensure_ordersOf st.dataset st.db r hnd hrmem st.datasetId st.deckId).2
    exact pickCurrent_pointerInv (rateSRSPostState st pp r rating now) now hpinv hpdense

/-! ### The normalization pass: density and clamping -/

theorem assignOrders_ids (rows : List SentenceRow) :
    (assignOrders rows).map (fun s => s.id) = rows.map (fun s => s.id) := by
  unfold assignOrders
  rw [List.map_map]
  conv_rhs => rw [← List.enum_map_snd rows, List.map_map]
  exact List.map_congr_left (fun p _ => rfl)

theorem assignOrders_orders (rows : List SentenceRow) :
    (assignOrders rows).map (fun s => s.order) = List.range rows.length := by
  unfold assignOrders
  rw [List.map_map]
  have h : ∀ p ∈ rows.enum,
      (((fun s => s.order) ∘ (fun p : Nat × SentenceRow =>
        ({ p.2 with order := p.1 } : SentenceRow))) : Nat × SentenceRow → Nat) p =
      Prod.fst p := fun p _ => rfl
  rw [List.map_congr_left h, List.enum_map_fst]

theorem assignOrders_length (rows : List SentenceRow) :
    (assignOrders rows).length = rows.length := by
  unfold assignOrders
  rw [List.length_map, List.enum_length]

theorem mem_assignOrders {rows : List SentenceRow} {m : SentenceRow}
    (hm : m ∈ assignOrders rows) :
    ∃ y ∈ rows, m.id = y.id ∧ m.datasetId = y.datasetId ∧ m.deckId = y.deckId := by
  unfold assignOrders at hm
  rcases List.mem_map.mp hm with ⟨p, hp, hpm⟩
  have hy : p.2 ∈ rows := by
    have h := List.enum_map_snd rows
    exact h ▸ List.mem_map.mpr ⟨p, hp, rfl⟩
  exact ⟨p.2, hy, by rw [← hpm], by rw [← hpm], by rw [← hpm]⟩

theorem assignOrders_get_id (rows : List SentenceRow) (i : Nat)
    (h1 : i < (assignOrders rows).length) (h2 : i < rows.length) :
    ((assignOrders rows).get ⟨i, h1⟩).id = (rows.get ⟨i, h2⟩).id := by
  unfold assignOrders at h1 ⊢
  rw [List.get_eq_getElem, List.get_eq_getElem, List.getElem_map, List.getElem_enum]

theorem map_find_getD_eq (l l2 : List SentenceRow)
    (hlen : l2.length = l.length)
    (hids : ∀ (i : Nat) (h1 : i < l.length) (h2 : i < l2.length),
      (l2.get ⟨i, h2⟩).id = (l.get ⟨i, h1⟩).id)
    (hnd2 : (l2.map (fun s => s.id)).Nodup) :
    l.map (fun y => (l2.find? (fun m => m.id == y.id)).getD y) = l2 := by
  apply List.ext_get (by rw [List.length_map, hlen])
  intro i hml hl2
  have hil : i < l.length := by rw [List.length_map] at hml; exact hml
  have hmap : (l.map (fun y => (l2.find? (fun m => m.id == y.id)).getD y)).get ⟨i, hml⟩ =
      (l2.find? (fun m => m.id == (l.get ⟨i, hil⟩).id)).getD (l.get ⟨i, hil⟩) := by
    simp only [List.get_eq_getElem, List.getElem_map]
  rw [hmap]
  have hkey : (l.get ⟨i, hil⟩).id = (l2.get ⟨i, hl2⟩).id := (hids i hil hl2).symm
  rw [hkey, find?_id_unique l2 (l2.get ⟨i, hl2⟩) hnd2 (List.getElem_mem hl2)]
  rfl

theorem normalizeRows_perm (db : DB) (ds dk : String) :
    List.Perm (normalizeRows db ds dk) (sentencesOf db ds dk) :=
  List.perm_insertionSort sentenceLe (sentencesOf db ds dk)

theorem normalizeRows_length (db : DB) (ds dk : String) :
    (normalizeRows db ds dk).length = deckCount db ds dk :=
  (normalizeRows_perm db ds dk).length_eq

theorem sentencesOf_ids_nodup (db : DB) (ds dk : String)
    (hnd : (db.sentences.map (fun s => s.id)).Nodup) :
    ((sentencesOf db ds dk).map (fun s => s.id)).Nodup :=
  List.Nodup.sublist (List.Sublist.map _ (List.filter_sublist _)) hnd

theorem normalizeRows_ids_nodup (db : DB) (ds dk : String)
    (hnd : (db.sentences.map (fun s => s.id)).Nodup) :
    ((normalizeRows db ds dk).map (fun s => s.id)).Nodup :=
  ((normalizeRows_perm db ds dk).map _).nodup_iff.mpr (sentencesOf_ids_nodup db ds dk hnd)

theorem normalizeDb1_facts (db : DB) (ds dk : String)
    (hnd : (db.sentences.map (fun s => s.id)).Nodup) :
    List.Perm (ordersOf (normalizeDb1 db ds dk) ds dk)
      (List.range (deckCount db ds dk)) ∧
    (∀ a b, deckCount (normalizeDb1 db ds dk) a b = deckCount db a b) ∧
    (normalizeDb1 db ds dk).pathProgress = db.pathProgress := by
  have hperm := normalizeRows_perm db ds dk
  unfold normalizeDb1
  by_cases hc : (normalizeChanged (normalizeRows db ds dk)
      && !(normalizeRows db ds dk).isEmpty) = true
  · rw [if_pos hc]
    have hndrows := normalizeRows_ids_nodup db ds dk hnd
    have hnd2 : ((assignOrders (normalizeRows db ds dk)).map (fun s => s.id)).Nodup := by
      rw [assignOrders_ids]; exact hndrows
    have hsub : ∀ m ∈ assignOrders (normalizeRows db ds dk),
        m.id ∈ db.sentences.map (fun s => s.id) := by
      intro m hm
      rcases mem_assignOrders hm with ⟨y, hy, hid, -, -⟩
      have hys : y ∈ sentencesOf db ds dk := hperm.mem_iff.mp hy
      exact List.mem_map.mpr ⟨y, (mem_sentencesOf hys).1, hid.symm⟩
    rw [bulkPutSentences_keyed (assignOrders (normalizeRows db ds dk)) db.sentences hnd2 hsub]
    set g : SentenceRow → SentenceRow := fun x =>
      ((assignOrders (normalizeRows db ds dk)).find? (fun m => m.id == x.id)).getD x with hg
    have hgfields : ∀ x ∈ db.sentences,
        (g x).datasetId = x.datasetId ∧ (g x).deckId = x.deckId := by
      intro x hx
      simp only [hg]
      cases hf : (assignOrders (normalizeRows db ds dk)).find? (fun m => m.id == x.id) with
      | none => exact ⟨rfl, rfl⟩
      | some m =>
        simp only [Option.getD_some]
        have hmmem := List.mem_of_find?_eq_some hf
        have hmid : m.id = x.id := by
          have h := List.find?_some hf
          simpa using h
        rcases mem_assignOrders hmmem with ⟨y, hy, hid, hds2, hdk2⟩
        have hys := hperm.mem_iff.mp hy
        obtain ⟨hymem, hyds, hydk⟩ := mem_sentencesOf hys
        have hyx : y = x := List.inj_on_of_nodup_map hnd hymem hx (by rw [← hid, hmid])
        constructor
        · show m.datasetId = x.datasetId
          rw [hds2, hyx]
        · show m.deckId = x.deckId
          rw [hdk2, hyx]
    refine ⟨?_, ?_, rfl⟩
    · have hsof := (deckCount_map_key_preserving db g hgfields ds dk).1
      have hordersOf : ordersOf { db with sentences := db.sentences.map g } ds dk =
          ((sentencesOf db ds dk).map g).map (fun s => s.order) := by
        show (sentencesOf { db with sentences := db.sentences.map g } ds dk).map
          (fun s => s.order) = _
        rw [hsof]
      rw [hordersOf]
      have hp2 : List.Perm (((sentencesOf db ds dk).map g).map (fun s => s.order))
          (((normalizeRows db ds dk).map g).map (fun s => s.order)) :=
        ((hperm.symm).map g).map _
      refine hp2.trans ?_
      have hmapg : (normalizeRows db ds dk).map g =
          assignOrders (normalizeRows db ds dk) := by
        rw [hg]
        refine map_find_getD_eq (normalizeRows db ds dk)
          (assignOrders (normalizeRows db ds dk)) (assignOrders_length _) ?_ hnd2
        intro i h1 h2
        exact assignOrders_get_id _ i h2 h1
      rw [hmapg, assignOrders_orders, normalizeRows_length]
    · intro a b
      exact (deckCount_map_key_preserving db g hgfields a b).2
  · rw [if_neg hc]
    refine ⟨?_, fun a b => rfl, rfl⟩
    have hor : normalizeChanged (normalizeRows db ds dk) = false ∨
        (normalizeRows db ds dk).isEmpty = true := by
      cases hch : normalizeChanged (normalizeRows db ds dk)
      · exact Or.inl rfl
      · cases hemp : (normalizeRows db ds dk).isEmpty
        · exfalso
          apply hc
          rw [hch, hemp]
          rfl
        · exact Or.inr rfl
    rcases hor with hch | hemp
    · have hall : ∀ p ∈ (normalizeRows db ds dk).enum, p.2.order = p.1 := by
        unfold normalizeChanged at hch
        rw [List.any_eq_false] at hch
        intro p hp
        have h := hch p hp
        simpa using h
      have hmap : (normalizeRows db ds dk).map (fun s => s.order) =
          List.range (normalizeRows db ds dk).length := by
        conv_lhs => rw [← List.enum_map_snd (normalizeRows db ds dk), List.map_map]
        have h2 : ∀ p ∈ (normalizeRows db ds dk).enum,
            (((fun s => s.order) ∘ Prod.snd) : Nat × SentenceRow → Nat) p = Prod.fst p :=
          fun p hp => hall p hp
        rw [List.map_congr_left h2, List.enum_map_fst]
      have hp2 : List.Perm (ordersOf db ds dk)
          ((normalizeRows db ds dk).map (fun s => s.order)) :=
        (hperm.map _).symm
      refine hp2.trans ?_
      rw [hmap, normalizeRows_length]
    · have hnil : sentencesOf db ds dk = [] := by
        have h0 : normalizeRows db ds dk = [] := by
          cases hx : normalizeRows db ds dk
          · rfl
          · rw [hx] at hemp
            simp at hemp
        have hpn := hperm
        rw [h0] at hpn
        have hlen0 := hpn.length_eq
        simp only [List.length_nil] at hlen0
        exact List.length_eq_zero.mp hlen0.symm
      show List.Perm (ordersOf db ds dk) (List.range (deckCount db ds dk))
      unfold ordersOf deckCount
      rw [hnil]
      exact List.Perm.nil

theorem normalize_dense (db : DB) (ds dk : String) (now : ℚ)
    (hnd : (db.sentences.map (fun s => s.id)).Nodup) :
    Dense (normalizeOrdersAndClampProgress db ds dk now) ds dk ∧
    (∀ a b, deckCount (normalizeOrdersAndClampProgress db ds dk now) a b =
      deckCount db a b) := by
  obtain ⟨hperm1, hcnt1, hpp1⟩ := normalizeDb1_facts db ds dk hnd
  have hsent : (normalizeOrdersAndClampProgress db ds dk now).sentences =
      (normalizeDb1 db ds dk).sentences := by
    unfold normalizeOrdersAndClampProgress
    cases hf1 : getPathProgress (normalizeDb1 db ds dk) ds dk with
    | none => rfl
    | some pp0 => rfl
  constructor
  · unfold Dense
    rw [ordersOf_congr hsent, deckCount_congr hsent, hcnt1]
    exact hperm1
  · intro a b
    rw [deckCount_congr hsent, hcnt1]

theorem normalize_clamp (db : DB) (ds dk : String) (now : ℚ) (pp' : PathProgressRow)
    (hfind : getPathProgress (normalizeOrdersAndClampProgress db ds dk now) ds dk =
      some pp') :
    pp'.linearOrder ≤ deckCount db ds dk - 1 ∧
    pp'.srsNewOrder ≤ deckCount db ds dk - 1 := by
  unfold normalizeOrdersAndClampProgress at hfind
  cases hf1 : getPathProgress (normalizeDb1 db ds dk) ds dk with
  | none =>
    rw [hf1] at hfind
    simp only [hf1] at hfind
    exact absurd hfind (by simp)
  | some pp0 =>
    rw [hf1] at hfind
    obtain ⟨hmem0, hds0, hdk0⟩ := getPathProgress_mem hf1
    have hupd : getPathProgress
        { normalizeDb1 db ds dk with
          pathProgress := putPathProgress (normalizeDb1 db ds dk).pathProgress
            (normalizeClamped pp0 (normalizeRows db ds dk) now) } ds dk =
        some (normalizeClamped pp0 (normalizeRows db ds dk) now) :=
      getPathProgress_update' _ _ ds dk hds0 hdk0
    rw [hupd, Option.some.injEq] at hfind
    subst hfind
    unfold normalizeClamped
    by_cases hemp : (normalizeRows db ds dk).isEmpty = true
    · simp only [hemp, if_true]
      exact ⟨Nat.zero_le _, Nat.zero_le _⟩
    · have hemp' : (normalizeRows db ds dk).isEmpty = false := by
        cases hx : (normalizeRows db ds dk).isEmpty
        · rfl
        · exact absurd hx hemp
      simp only [hemp', Bool.false_eq_true, if_false]
      rw [← normalizeRows_length db ds dk]
      exact ⟨Nat.min_le_right _ _, Nat.min_le_right _ _⟩

theorem deleteBatchDb2_sentences_nodup (db : DB) (ds dk importId : String)
    (hnd : (db.sentences.map (fun s => s.id)).Nodup) :
    ((deleteBatchDb2 db ds dk importId).sentences.map (fun s => s.id)).Nodup := by
  unfold deleteBatchDb2
  by_cases hids : (deleteBatchIds db ds dk importId).isEmpty = true
  · simp only [hids, if_true]
    exact hnd
  · have hids' : (deleteBatchIds db ds dk importId).isEmpty = false := by
      cases hx : (deleteBatchIds db ds dk importId).isEmpty
      · rfl
      · exact absurd hx hids
    simp only [hids', Bool.false_eq_true, if_false]
    exact List.Nodup.sublist (List.Sublist.map _ (List.filter_sublist _)) hnd

theorem deleteImportBatch_facts (db : DB) (ds dk importId : String) (now : ℚ)
    (hnd : (db.sentences.map (fun s => s.id)).Nodup) :
    Dense (deleteImportBatch db ds dk importId now).1 ds dk ∧
    (∀ pp', getPathProgress (deleteImportBatch db ds dk importId now).1 ds dk = some pp' →
      pp'.linearOrder ≤ deckCount (deleteImportBatch db ds dk importId now).1 ds dk - 1 ∧
      pp'.srsNewOrder ≤ deckCount (deleteImportBatch db ds dk importId now).1 ds dk - 1) := by
  have hnd2 := deleteBatchDb2_sentences_nodup db ds dk importId hnd
  have h1 : (deleteImportBatch db ds dk importId now).1 =
      normalizeOrdersAndClampProgress (deleteBatchDb2 db ds dk importId) ds dk now := rfl
  obtain ⟨hd, hcnt⟩ := normalize_dense (deleteBatchDb2 db ds dk importId) ds dk now hnd2
  constructor
  · rw [h1]
    exact hd
  · intro pp' hp
    rw [h1] at hp ⊢
    rw [hcnt ds dk]
    exact normalize_clamp _ ds dk now pp' hp

/-! ### Import density -/

theorem getNextOrderBase_of_dense (db : DB) (ds dk : String) (hdense : Dense db ds dk) :
    getNextOrderBase db ds dk = deckCount db ds dk := by
  unfold getNextOrderBase
  cases hlast : (orderedSentences db ds dk).getLast? with
  | none =>
    have hnil : orderedSentences db ds dk = [] := List.getLast?_eq_none_iff.mp hlast
    have hlen : deckCount db ds dk = 0 := by
      have hp : List.Perm (orderedSentences db ds dk) (sentencesOf db ds dk) :=
        List.perm_insertionSort _ _
      rw [hnil] at hp
      have h0 := hp.length_eq
      simp only [List.length_nil] at h0
      exact h0.symm
    rw [hlen]
  | some lastRow =>
    have hmem : lastRow ∈ sentencesOf db ds dk :=
      mem_orderedSentences.mp (List.mem_of_getLast?_eq_some hlast)
    have hsorted : (orderedSentences db ds dk).Pairwise sentenceLe :=
      List.sorted_insertionSort sentenceLe (sentencesOf db ds dk)
    have hbound := pairwise_rel_getLast? _ hsorted lastRow hlast
    have hmemo : lastRow.order ∈ ordersOf db ds dk :=
      List.mem_map.mpr ⟨lastRow, hmem, rfl⟩
    have hlt : lastRow.order < deckCount db ds dk := by
      have h := hdense.mem_iff.mp hmemo
      rw [List.mem_range] at h
      exact h
    have hmax : deckCount db ds dk - 1 ∈ ordersOf db ds dk :=
      hdense.mem_iff.mpr (List.mem_range.mpr (by omega))
    rcases List.mem_map.mp hmax with ⟨x, hx, hxo⟩
    have hxmem : x ∈ orderedSentences db ds dk := mem_orderedSentences.mpr hx
    have hle : x.order ≤ lastRow.order := by
      rcases hbound x hxmem with rfl | hrel
      · exact Nat.le_refl _
      · have hrel' : x.order < lastRow.order ∨
            (x.order = lastRow.order ∧ strLe x.id lastRow.id = true) := hrel
        rcases hrel' with h | ⟨h, -⟩
        · exact Nat.le_of_lt h
        · exact Nat.le_of_eq h
    rw [hxo] at hle
    show lastRow.order + 1 = deckCount db ds dk
    omega

theorem dense_append (db : DB) (ds dk : String) (new : List SentenceRow) (b : Nat)
    (hdense : Dense db ds dk) (hb : b = deckCount db ds dk)
    (hfields : ∀ m ∈ new, m.datasetId = ds ∧ m.deckId = dk)
    (horders : new.map (fun s => s.order) = List.range' b new.length)
    (hfresh : ∀ m ∈ new, ¬ m.id ∈ db.sentences.map (fun s => s.id))
    (hnd : (new.map (fun s => s.id)).Nodup) :
    Dense { db with sentences := bulkPutSentences db.sentences new } ds dk := by
  rw [show bulkPutSentences db.sentences new = db.sentences ++ new from
    bulkPutSentences_fresh new db.sentences hfresh hnd]
  have hsof : sentencesOf { db with sentences := db.sentences ++ new } ds dk =
      sentencesOf db ds dk ++ new := by
    show (db.sentences ++ new).filter _ = _
    rw [List.filter_append]
    congr 1
    refine List.filter_eq_self.mpr ?_
    intro m hm
    rw [(hfields m hm).1, (hfields m hm).2]
    simp
  unfold Dense ordersOf deckCount
  rw [hsof, List.map_append, List.length_append, horders]
  have hdense' : List.Perm ((sentencesOf db ds dk).map (fun s => s.order))
      (List.range (sentencesOf db ds dk).length) := hdense
  have hb' : b = (sentencesOf db ds dk).length := hb
  have hsplit : List.range ((sentencesOf db ds dk).length + new.length) =
      List.range (sentencesOf db ds dk).length ++ List.range' b new.length := by
    rw [List.range_eq_range', List.range_eq_range', hb']
    have h := List.range'_append_1 0 (sentencesOf db ds dk).length new.length
    rw [Nat.zero_add] at h
    rw [Nat.add_comm (sentencesOf db ds dk).length new.length]
    exact h.symm
  rw [hsplit]
  exact List.Perm.append hdense' (List.Perm.refl _)

theorem buildImportRows_facts (dsId dk imp : String) (cjk : Bool) (fid : Nat → String)
    (res : ResolvedMapping) (b : Nat) :
    ∀ (rows : List (List (String × String))) (inserted : Nat),
    ((buildImportRows dsId dk imp cjk fid res b rows inserted).map (fun s => s.order) =
      List.range' (b + inserted)
        (buildImportRows dsId dk imp cjk fid res b rows inserted).length) ∧
    (∀ m ∈ buildImportRows dsId dk imp cjk fid res b rows inserted,
      m.datasetId = dsId ∧ m.deckId = dk) := by
  intro rows
  induction rows with
  | nil =>
    intro inserted
    constructor
    · rfl
    · intro m hm
      simp [buildImportRows] at hm
  | cons r rest ih =>
    intro inserted
    simp only [buildImportRows]
    by_cases hskip : (getRowValue r (some res.sourceKey) == "" &&
        getRowValue r (some res.targetKey) == "") = true
    · rw [if_pos hskip]
      exact ih inserted
    · rw [if_neg hskip]
      constructor
      · rw [List.map_cons, (ih (inserted + 1)).1, List.length_cons, List.range'_succ]
        have hadd : b + (inserted + 1) = b + inserted + 1 := by omega
        rw [hadd]
      · intro m hm
        rcases List.mem_cons.mp hm with rfl | hm'
        · exact ⟨rfl, rfl⟩
        · exact (ih (inserted + 1)).2 m hm'

theorem clearPathData_sentences (db : DB) (ds dk : String) (now : ℚ) :
    (clearPathData db ds dk now).sentences =
      db.sentences.filter (fun s => !(s.datasetId == ds && s.deckId == dk)) := by
  unfold clearPathData
  cases hf : getPathProgress (clearPathDataDb1 db ds dk) ds dk with
  | none => rfl
  | some pp => rfl

theorem sentencesOf_clearPathData (db : DB) (ds dk : String) (now : ℚ) :
    sentencesOf (clearPathData db ds dk now) ds dk = [] := by
  unfold sentencesOf
  rw [clearPathData_sentences]
  refine List.filter_eq_nil_iff.mpr ?_
  intro a ha
  have h := List.of_mem_filter ha
  simp only [Bool.not_eq_true', Bool.and_eq_true, beq_iff_eq] at h ⊢
  intro hcon
  rw [Bool.and_eq_false_iff] at h
  rcases h with h | h <;> simp only [beq_eq_false_iff_ne] at h
  · exact h hcon.1
  · exact h hcon.2

theorem importDb0_append (db : DB) (dataset : Dataset) (deckId : String) (now : ℚ) :
    importDb0 db dataset deckId ImportMode.append now = db := rfl

theorem importBaseOrder_append (db : DB) (dataset : Dataset) (deckId : String) (now : ℚ) :
    importBaseOrder db dataset deckId ImportMode.append now =
      getNextOrderBase db dataset.id deckId := rfl

theorem importDb0_replace (db : DB) (dataset : Dataset) (deckId : String) (now : ℚ) :
    importDb0 db dataset deckId ImportMode.replace now =
      clearPathData db dataset.id deckId now := rfl

theorem importBaseOrder_replace (db : DB) (dataset : Dataset) (deckId : String) (now : ℚ) :
    importBaseOrder db dataset deckId ImportMode.replace now = 0 := rfl

theorem importCSVorTSV_ok_db (db : DB) (dataset : Dataset) (deckId filename text : String)
    (delimiter : Char) (mapping : ImportMapping) (mode : ImportMode) (importId : String)
    (freshId : Nat → String) (now : ℚ) (db' : DB) (out : ImportOutcome)
    (hok : importCSVorTSV db dataset deckId filename text delimiter mapping mode
      importId freshId now = Except.ok (db', out)) :
    db'.sentences = bulkPutSentences (importDb0 db dataset deckId mode now).sentences
      (importToInsert db dataset deckId text delimiter mapping mode importId
        freshId now) := by
  simp only [importCSVorTSV] at hok
  split at hok
  · rw [Except.ok.injEq, Prod.mk.injEq] at hok
    obtain ⟨h1, -⟩ := hok
    rw [← h1]
  · exact absurd hok (by simp)

theorem import_append_dense (db : DB) (dataset : Dataset)
    (deckId filename text : String) (delimiter : Char) (mapping : ImportMapping)
    (importId : String) (freshId : Nat → String) (now : ℚ) (db' : DB)
    (out : ImportOutcome)
    (hdense : Dense db dataset.id deckId)
    (hok : importCSVorTSV db dataset deckId filename text delimiter mapping
      ImportMode.append importId freshId now = Except.ok (db', out))
    (hfresh : ∀ m ∈ importToInsert db dataset deckId text delimiter mapping
      ImportMode.append importId freshId now,
      ¬ m.id ∈ db.sentences.map (fun s => s.id))
    (hnd : ((importToInsert db dataset deckId text delimiter mapping ImportMode.append
      importId freshId now).map (fun s => s.id)).Nodup) :
    Dense db' dataset.id deckId := by
  have hsents : db'.sentences =
      ({ db with
        sentences := bulkPutSentences db.sentences
          (importToInsert db dataset deckId text delimiter mapping ImportMode.append
            importId freshId now) } : DB).sentences := by
    have h := importCSVorTSV_ok_db db dataset deckId filename text delimiter mapping
      ImportMode.append importId freshId now db' out hok
    rw [importDb0_append] at h
    exact h
  refine dense_congr hsents dataset.id deckId ?_
  refine dense_append db dataset.id deckId _
    (importBaseOrder db dataset deckId ImportMode.append now) hdense ?_ ?_ ?_ hfresh hnd
  · rw [importBaseOrder_append]
    exact getNextOrderBase_of_dense db dataset.id deckId hdense
  · intro m hm
    exact (buildImportRows_facts dataset.id deckId importId dataset.cjkMode freshId
      (inferMappingFromHeaders (parseDelimited text delimiter).headers mapping)
      (importBaseOrder db dataset deckId ImportMode.append now)
      (parseDelimited text delimiter).rows 0).2 m hm
  · show (buildImportRows dataset.id deckId importId dataset.cjkMode freshId
      (inferMappingFromHeaders (parseDelimited text delimiter).headers mapping)
      (importBaseOrder db dataset deckId ImportMode.append now)
      (parseDelimited text delimiter).rows 0).map (fun s => s.order) = _
    rw [(buildImportRows_facts dataset.id deckId importId dataset.cjkMode freshId
      (inferMappingFromHeaders (parseDelimited text delimiter).headers mapping)
      (importBaseOrder db dataset deckId ImportMode.append now)
      (parseDelimited text delimiter).rows 0).1, Nat.add_zero]
    rfl

theorem import_replace_dense (db : DB) (dataset : Dataset)
    (deckId filename text : String) (delimiter : Char) (mapping : ImportMapping)
    (importId : String) (freshId : Nat → String) (now : ℚ) (db' : DB)
    (out : ImportOutcome)
    (hok : importCSVorTSV db dataset deckId filename text delimiter mapping
      ImportMode.replace importId freshId now = Except.ok (db', out))
    (hfresh : ∀ m ∈ importToInsert db dataset deckId text delimiter mapping
      ImportMode.replace importId freshId now,
      ¬ m.id ∈ (clearPathData db dataset.id deckId now).sentences.map (fun s => s.id))
    (hnd : ((importToInsert db dataset deckId text delimiter mapping ImportMode.replace
      importId freshId now).map (fun s => s.id)).Nodup) :
    Dense db' dataset.id deckId := by
  have hdense0 : Dense (clearPathData db dataset.id deckId now) dataset.id deckId :=
    dense_of_empty (sentencesOf_clearPathData db dataset.id deckId now)
  have hsents : db'.sentences =
      ({ clearPathData db dataset.id deckId now with
        sentences := bulkPutSentences (clearPathData db dataset.id deckId now).sentences
          (importToInsert db dataset deckId text delimiter mapping ImportMode.replace
            importId freshId now) } : DB).sentences := by
    have h := importCSVorTSV_ok_db db dataset deckId filename text delimiter mapping
      ImportMode.replace importId freshId now db' out hok
    rw [importDb0_replace] at h
    exact h
  refine dense_congr hsents dataset.id deckId ?_
  refine dense_append (clearPathData db dataset.id deckId now) dataset.id deckId _
    (importBaseOrder db dataset deckId ImportMode.replace now) hdense0 ?_ ?_ ?_ hfresh hnd
  · rw [importBaseOrder_replace]
    have h0 : deckCount (clearPathData db dataset.id deckId now) dataset.id deckId = 0 := by
      unfold deckCount
      rw [sentencesOf_clearPathData]
      rfl
    rw [h0]
  · intro m hm
    exact (buildImportRows_facts dataset.id deckId importId dataset.cjkMode freshId
      (inferMappingFromHeaders (parseDelimited text delimiter).headers mapping)
      (importBaseOrder db dataset deckId ImportMode.replace now)
      (parseDelimited text delimiter).rows 0).2 m hm
  · show (buildImportRows dataset.id deckId importId dataset.cjkMode freshId
      (inferMappingFromHeaders (parseDelimited text delimiter).headers mapping)
      (importBaseOrder db dataset deckId ImportMode.replace now)
      (parseDelimited text delimiter).rows 0).map (fun s => s.order) = _
    rw [(buildImportRows_facts dataset.id deckId importId dataset.cjkMode freshId
      (inferMappingFromHeaders (parseDelimited text delimiter).headers mapping)
      (importBaseOrder db dataset deckId ImportMode.replace now)
      (parseDelimited text delimiter).rows 0).1, Nat.add_zero]
    rfl

/-! ### Migration and restore: grouped sentence rebuilds -/

theorem filter_flatMap_group {α : Type} (ds : String) (k : α → String)
    (f : α → List SentenceRow) (pred : SentenceRow → Bool)
    (hk : ∀ a, ∀ m ∈ f a, m.datasetId = k a)
    (hpred : ∀ s, pred s = true → s.datasetId = ds) :
    ∀ (l : List α), (l.map k).Nodup → ∀ a0, a0 ∈ l → k a0 = ds →
    (∀ m ∈ f a0, pred m = true) →
    (l.flatMap f).filter pred = f a0 := by
  intro l
  induction l with
  | nil =>
    intro _ a0 h
    simp at h
  | cons a tl ih =>
    intro hnd a0 ha0 hkds hmatch
    rw [List.flatMap_cons, List.filter_append]
    rcases List.mem_cons.mp ha0 with rfl | ha0'
    · have h1 : (f a0).filter pred = f a0 := List.filter_eq_self.mpr hmatch
      have h2 : (tl.flatMap f).filter pred = [] := by
        refine List.filter_eq_nil_iff.mpr ?_
        intro m hm hpm
        rcases List.mem_flatMap.mp hm with ⟨a', ha', hma'⟩
        have hka' : k a' = k a0 := by
          rw [hkds, ← hpred m hpm, hk a' m hma']
        have hnotin := (List.nodup_cons.mp hnd).1
        apply hnotin
        rw [← hka']
        exact List.mem_map.mpr ⟨a', ha', rfl⟩
      rw [h1, h2, List.append_nil]
    · have hka : k a ≠ ds := by
        intro he
        have hnotin := (List.nodup_cons.mp hnd).1
        apply hnotin
        rw [he, ← hkds]
        exact List.mem_map.mpr ⟨a0, ha0', rfl⟩
      have h1 : (f a).filter pred = [] := by
        refine List.filter_eq_nil_iff.mpr ?_
        intro m hm hpm
        apply hka
        rw [← hk a m hm]
        exact hpred m hpm
      rw [h1, List.nil_append]
      exact ih (List.nodup_cons.mp hnd).2 a0 ha0' hkds hmatch

theorem filter_flatMap_group_nil {α : Type} (ds : String) (k : α → String)
    (f : α → List SentenceRow) (pred : SentenceRow → Bool)
    (hk : ∀ a, ∀ m ∈ f a, m.datasetId = k a)
    (hpred : ∀ s, pred s = true → s.datasetId = ds)
    (l : List α) (habs : ¬ ds ∈ l.map k) :
    (l.flatMap f).filter pred = [] := by
  refine List.filter_eq_nil_iff.mpr ?_
  intro m hm hpm
  rcases List.mem_flatMap.mp hm with ⟨a', ha', hma'⟩
  exact habs (List.mem_map.mpr ⟨a', ha', (hk a' m hma').symm.trans (hpred m hpm)⟩)

theorem migrateSentences_fields (a : Dataset) (ss : List V1Sentence)
    (hss : ∀ s ∈ ss, s.datasetId = a.id) :
    ∀ m ∈ migrateSentences a ss,
      m.datasetId = a.id ∧ m.deckId = "deck_" ++ a.id := by
  intro m hm
  unfold migrateSentences at hm
  rcases List.mem_map.mp hm with ⟨p, hp, hpm⟩
  have hp2 : p.2 ∈ sortV1ById ss := by
    have h := List.enum_map_snd (sortV1ById ss)
    rw [← h]
    exact List.mem_map.mpr ⟨p, hp, rfl⟩
  have hp3 : p.2 ∈ ss := (List.perm_insertionSort v1IdLe ss).mem_iff.mp hp2
  constructor
  · rw [← hpm]
    exact hss p.2 hp3
  · rw [← hpm]

theorem migrateSentences_orders (a : Dataset) (ss : List V1Sentence) :
    (migrateSentences a ss).map (fun s => s.order) =
      List.range (sortV1ById ss).length := by
  unfold migrateSentences
  rw [List.map_map]
  have h : ∀ p ∈ (sortV1ById ss).enum,
      (((fun s => s.order) ∘ (fun p : Nat × V1Sentence =>
        ({ id := p.2.id, datasetId := p.2.datasetId, deckId := "deck_" ++ a.id,
           order := p.1, importId := "legacy", sourceText := p.2.sourceText,
           targetText := p.2.targetText, transliterationText := p.2.transliterationText,
           glossText := p.2.glossText, tokenCount := p.2.tokenCount,
           legacyTarget := none, legacySource := none } : SentenceRow))) :
        Nat × V1Sentence → Nat) p = Prod.fst p := fun p _ => rfl
  rw [List.map_congr_left h, List.enum_map_fst]

theorem migrate_sentencesOf (v1 : V1DB) (now : ℚ) (ds : Dataset)
    (hnd : (v1.datasets.map (fun d => d.id)).Nodup) (hds : ds ∈ v1.datasets) :
    sentencesOf (upgradeV1toV2 v1 now) ds.id ("deck_" ++ ds.id) =
      migrateSentences ds (v1.sentences.filter (fun s => s.datasetId == ds.id)) := by
  show ((v1.datasets.flatMap (fun a => migrateSentences a
      (v1.sentences.filter (fun s => s.datasetId == a.id)))).filter
      (fun s => s.datasetId == ds.id && s.deckId == ("deck_" ++ ds.id))) = _
  refine filter_flatMap_group ds.id (fun a : Dataset => a.id)
    (fun a => migrateSentences a (v1.sentences.filter (fun s => s.datasetId == a.id)))
    _ ?_ ?_ v1.datasets hnd ds hds rfl ?_
  · intro a m hm
    refine (migrateSentences_fields a _ ?_ m hm).1
    intro s hs
    have h := List.of_mem_filter hs
    exact beq_iff_eq.mp h
  · intro s hs
    simp only [Bool.and_eq_true, beq_iff_eq] at hs
    exact hs.1
  · intro m hm
    have hfields : m.datasetId = ds.id ∧ m.deckId = "deck_" ++ ds.id := by
      refine migrateSentences_fields ds _ ?_ m hm
      intro s hs
      have h := List.of_mem_filter hs
      exact beq_iff_eq.mp h
    simp only [Bool.and_eq_true, beq_iff_eq]
    exact hfields

theorem migration_dense (v1 : V1DB) (now : ℚ) (ds : Dataset)
    (hnd : (v1.datasets.map (fun d => d.id)).Nodup) (hds : ds ∈ v1.datasets) :
    Dense (upgradeV1toV2 v1 now) ds.id ("deck_" ++ ds.id) ∧
    ordersOf (upgradeV1toV2 v1 now) ds.id ("deck_" ++ ds.id) =
      List.range (deckCount (upgradeV1toV2 v1 now) ds.id ("deck_" ++ ds.id)) := by
  have hs := migrate_sentencesOf v1 now ds hnd hds
  have horders : ordersOf (upgradeV1toV2 v1 now) ds.id ("deck_" ++ ds.id) =
      List.range (deckCount (upgradeV1toV2 v1 now) ds.id ("deck_" ++ ds.id)) := by
    unfold ordersOf deckCount
    rw [hs, migrateSentences_orders]
    congr 1
    unfold migrateSentences
    rw [List.length_map, List.enum_length]
  constructor
  · unfold Dense
    rw [horders]
  · exact horders

/-! ### Migration and restore: derived decks and PathProgress -/

theorem find?_map_of_unique_key {α β : Type} (k : α → String) (f : α → β)
    (pred : β → Bool) :
    ∀ (l : List α), (l.map k).Nodup → ∀ a0, a0 ∈ l →
    pred (f a0) = true → (∀ a ∈ l, k a ≠ k a0 → pred (f a) = false) →
    (l.map f).find? pred = some (f a0) := by
  intro l
  induction l with
  | nil =>
    intro _ a0 h
    simp at h
  | cons a tl ih =>
    intro hnd a0 ha0 hp0 hother
    rw [List.map_cons]
    rcases List.mem_cons.mp ha0 with rfl | ha0'
    · exact List.find?_cons_of_pos _ hp0
    · by_cases hk : k a = k a0
      · exfalso
        have hnotin := (List.nodup_cons.mp hnd).1
        apply hnotin
        rw [hk]
        exact List.mem_map.mpr ⟨a0, ha0', rfl⟩
      · have hpa : pred (f a) = false := hother a (by simp) hk
        rw [show List.find? pred (f a :: tl.map f) = List.find? pred (tl.map f) from
          List.find?_cons_of_neg _ (by simp [hpa])]
        exact ih (List.nodup_cons.mp hnd).2 a0 ha0' hp0
          (fun a' ha' hne => hother a' (by simp [ha']) hne)

theorem migration_pathProgress (v1 : V1DB) (now : ℚ) (ds : Dataset)
    (hnd : (v1.datasets.map (fun d => d.id)).Nodup) (hds : ds ∈ v1.datasets) :
    getPathProgress (upgradeV1toV2 v1 now) ds.id ("deck_" ++ ds.id) =
      some (derivePathProgress ds (findLegacyProgress v1.progress ds.id) now) := by
  show (v1.datasets.map (fun a =>
      derivePathProgress a (findLegacyProgress v1.progress a.id) now)).find?
      (fun p => p.datasetId == ds.id && p.deckId == ("deck_" ++ ds.id)) = _
  refine find?_map_of_unique_key (fun d : Dataset => d.id)
    (fun a => derivePathProgress a (findLegacyProgress v1.progress a.id) now)
    _ v1.datasets hnd ds hds ?_ ?_
  · simp only [Bool.and_eq_true, beq_iff_eq]
    exact ⟨rfl, rfl⟩
  · intro a ha hne
    have hfst : (((derivePathProgress a (findLegacyProgress v1.progress a.id)
        now).datasetId == ds.id) : Bool) = false := by
      simp only [beq_eq_false_iff_ne]
      exact hne
    rw [hfst, Bool.false_and]

theorem migrateSentences_id_monotone (a : Dataset) (ss : List V1Sentence)
    (r1 r2 : SentenceRow) (h1 : r1 ∈ migrateSentences a ss)
    (h2 : r2 ∈ migrateSentences a ss) (hlt : r1.order < r2.order) :
    strLe r1.id r2.id = true := by
  unfold migrateSentences at h1 h2
  rcases List.mem_map.mp h1 with ⟨p, hp, hpr⟩
  rcases List.mem_map.mp h2 with ⟨q, hq, hqr⟩
  rw [List.mem_enum_iff_getElem?] at hp hq
  obtain ⟨hplen, hpel⟩ := List.getElem?_eq_some.mp hp
  obtain ⟨hqlen, hqel⟩ := List.getElem?_eq_some.mp hq
  have hsorted : (sortV1ById ss).Pairwise v1IdLe :=
    List.sorted_insertionSort v1IdLe ss
  have e1 : r1.order = p.1 := by rw [← hpr]
  have e2 : r2.order = q.1 := by rw [← hqr]
  have hij : p.1 < q.1 := by omega
  have hrel := List.pairwise_iff_get.mp hsorted ⟨p.1, hplen⟩ ⟨q.1, hqlen⟩ hij
  have hr1id : r1.id = p.2.id := by rw [← hpr]
  have hr2id : r2.id = q.2.id := by rw [← hqr]
  rw [hr1id, hr2id]
  have hp2 : p.2 = (sortV1ById ss).get ⟨p.1, hplen⟩ := by
    rw [List.get_eq_getElem, hpel]
  have hq2 : q.2 = (sortV1ById ss).get ⟨q.1, hqlen⟩ := by
    rw [List.get_eq_getElem, hqel]
  rw [hp2, hq2]
  exact hrel

theorem ensureDecks_of_no_decks (datasets : List Dataset) :
    ensureDecksForImport datasets [] = datasets.map mkMainDeck := by
  unfold ensureDecksForImport
  rw [List.nil_append]
  have hf : datasets.filter
      (fun ds => !([] : List Deck).any (fun d => d.datasetId == ds.id)) = datasets :=
    List.filter_eq_self.mpr (fun a _ => rfl)
  rw [hf]
  exact List.map_congr_left (fun a _ => rfl)

theorem defaultDeckIdFor_main (datasets : List Dataset) (ds : Dataset)
    (hnd : (datasets.map (fun d => d.id)).Nodup) (hds : ds ∈ datasets) :
    defaultDeckIdFor (datasets.map mkMainDeck) ds.id = "deck_" ++ ds.id := by
  unfold defaultDeckIdFor
  have hfind : (datasets.map mkMainDeck).find? (fun d => d.datasetId == ds.id) =
      some (mkMainDeck ds) := by
    refine find?_map_of_unique_key (fun d : Dataset => d.id) mkMainDeck _ datasets hnd
      ds hds ?_ ?_
    · simp [mkMainDeck]
    · intro a ha hne
      simp only [beq_eq_false_iff_ne]
      exact hne
  rw [hfind]
  rfl

theorem mem_datasetIdsInOrder (ss : List BackupSentence) (d : String) :
    d ∈ datasetIdsInOrder ss ↔ ∃ s ∈ ss, s.datasetId = d := by
  have key : ∀ (ss' : List BackupSentence) (acc : List String),
      (d ∈ ss'.foldl (fun acc s =>
        if acc.contains s.datasetId then acc else acc ++ [s.datasetId]) acc ↔
       d ∈ acc ∨ ∃ s ∈ ss', s.datasetId = d) := by
    intro ss'
    induction ss' with
    | nil =>
      intro acc
      simp
    | cons s tl ih =>
      intro acc
      rw [List.foldl_cons]
      by_cases hc : acc.contains s.datasetId = true
      · rw [if_pos hc, ih acc]
        constructor
        · rintro (h | ⟨x, hx, hxd⟩)
          · exact Or.inl h
          · exact Or.inr ⟨x, by simp [hx], hxd⟩
        · rintro (h | ⟨x, hx, hxd⟩)
          · exact Or.inl h
          · rcases List.mem_cons.mp hx with rfl | hx'
            · left
              rw [← hxd]
              simpa using hc
            · exact Or.inr ⟨x, hx', hxd⟩
      · rw [if_neg hc, ih (acc ++ [s.datasetId])]
        constructor
        · rintro (h | ⟨x, hx, hxd⟩)
          · rcases List.mem_append.mp h with h' | h'
            · exact Or.inl h'
            · right
              refine ⟨s, by simp, ?_⟩
              exact (List.mem_singleton.mp h').symm
          · exact Or.inr ⟨x, by simp [hx], hxd⟩
        · rintro (h | ⟨x, hx, hxd⟩)
          · exact Or.inl (List.mem_append.mpr (Or.inl h))
          · rcases List.mem_cons.mp hx with rfl | hx'
            · left
              refine List.mem_append.mpr (Or.inr ?_)
              simp [hxd]
            · exact Or.inr ⟨x, hx', hxd⟩
  unfold datasetIdsInOrder
  rw [key ss []]
  simp

theorem datasetIdsInOrder_nodup (ss : List BackupSentence) :
    (datasetIdsInOrder ss).Nodup := by
  have key : ∀ (ss' : List BackupSentence) (acc : List String), acc.Nodup →
      (ss'.foldl (fun acc s =>
        if acc.contains s.datasetId then acc else acc ++ [s.datasetId]) acc).Nodup := by
    intro ss'
    induction ss' with
    | nil =>
      intro acc ha
      exact ha
    | cons s tl ih =>
      intro acc ha
      rw [List.foldl_cons]
      by_cases hc : acc.contains s.datasetId = true
      · rw [if_pos hc]
        exact ih acc ha
      · rw [if_neg hc]
        refine ih _ ?_
        rw [List.nodup_append]
        refine ⟨ha, List.nodup_singleton _, ?_⟩
        intro x hx1 hx2
        rw [List.mem_singleton] at hx2
        subst hx2
        have hnm : ¬ s.datasetId ∈ acc := by simpa using hc
        exact hnm hx1
  exact key ss [] List.nodup_nil

theorem importAllFromJSON_sentences (doc : BackupDoc) (now : ℚ)
    (hneed : (doc.sentences.any (fun s =>
      s.deckId.isNone || s.order.isNone || s.importId.isNone)) = true) :
    (importAllFromJSON doc now).sentences =
      upgradeBackupSentences (ensureDecksForImport doc.datasets doc.decks)
        doc.sentences := by
  unfold importAllFromJSON
  simp only [hneed, if_true]

theorem importAllFromJSON_pathProgress (doc : BackupDoc) (now : ℚ)
    (hpp : doc.pathProgress = []) :
    (importAllFromJSON doc now).pathProgress =
      doc.datasets.map (restoreDerivedPP doc now) := by
  unfold importAllFromJSON
  simp only [hpp, List.isEmpty_nil, if_true]
  exact List.map_congr_left (fun a _ => rfl)

theorem backupGroupRows_fields (decks : List Deck) (ss : List BackupSentence)
    (a : String) :
    ∀ m ∈ backupGroupRows decks ss a,
      m.datasetId = a ∧ m.deckId = defaultDeckIdFor decks a := by
  intro m hm
  unfold backupGroupRows at hm
  rcases List.mem_map.mp hm with ⟨p, hp, hpm⟩
  have hp2 : p.2 ∈ sortBackupById (ss.filter (fun s => s.datasetId == a)) := by
    have h := List.enum_map_snd (sortBackupById (ss.filter (fun s => s.datasetId == a)))
    rw [← h]
    exact List.mem_map.mpr ⟨p, hp, rfl⟩
  have hp3 : p.2 ∈ ss.filter (fun s => s.datasetId == a) :=
    (List.perm_insertionSort backupIdLe _).mem_iff.mp hp2
  have hda : p.2.datasetId = a := by
    have h := List.of_mem_filter hp3
    exact beq_iff_eq.mp h
  constructor
  · rw [← hpm]
    exact hda
  · rw [← hpm]

theorem backupGroupRows_orders (decks : List Deck) (ss : List BackupSentence)
    (a : String) :
    (backupGroupRows decks ss a).map (fun s => s.order) =
      List.range (backupGroupRows decks ss a).length := by
  unfold backupGroupRows
  rw [List.map_map, List.length_map, List.enum_length]
  have h : ∀ p ∈ (sortBackupById (ss.filter (fun s => s.datasetId == a))).enum,
      (((fun s => s.order) ∘ (fun p : Nat × BackupSentence =>
        ({ id := p.2.id, datasetId := p.2.datasetId,
           deckId := defaultDeckIdFor decks a, order := p.1,
           importId := p.2.importId.getD "legacy", sourceText := p.2.sourceText,
           targetText := p.2.targetText, transliterationText := p.2.transliterationText,
           glossText := p.2.glossText, tokenCount := p.2.tokenCount,
           legacyTarget := none, legacySource := none } : SentenceRow))) :
        Nat × BackupSentence → Nat) p = Prod.fst p := fun p _ => rfl
  rw [List.map_congr_left h, List.enum_map_fst]

theorem restore_sentencesOf (doc : BackupDoc) (now : ℚ) (dsId : String)
    (hneed : (doc.sentences.any (fun s =>
      s.deckId.isNone || s.order.isNone || s.importId.isNone)) = true) :
    sentencesOf (importAllFromJSON doc now) dsId
      (defaultDeckIdFor (ensureDecksForImport doc.datasets doc.decks) dsId) =
      backupGroupRows (ensureDecksForImport doc.datasets doc.decks)
        doc.sentences dsId := by
  unfold sentencesOf
  rw [importAllFromJSON_sentences doc now hneed]
  unfold upgradeBackupSentences
  have hk : ∀ a, ∀ m ∈ backupGroupRows (ensureDecksForImport doc.datasets doc.decks)
      doc.sentences a, m.datasetId = a :=
    fun a m hm => (backupGroupRows_fields _ _ a m hm).1
  have hpred : ∀ s : SentenceRow,
      ((s.datasetId == dsId && s.deckId ==
        defaultDeckIdFor (ensureDecksForImport doc.datasets doc.decks) dsId) = true) →
      s.datasetId = dsId := by
    intro s hs
    simp only [Bool.and_eq_true, beq_iff_eq] at hs
    exact hs.1
  by_cases hin : dsId ∈ datasetIdsInOrder doc.sentences
  · refine filter_flatMap_group dsId (fun x : String => x)
      (backupGroupRows (ensureDecksForImport doc.datasets doc.decks) doc.sentences)
      _ hk hpred (datasetIdsInOrder doc.sentences)
      (by simpa using datasetIdsInOrder_nodup doc.sentences) dsId hin rfl ?_
    intro m hm
    obtain ⟨h1, h2⟩ := backupGroupRows_fields
      (ensureDecksForImport doc.datasets doc.decks) doc.sentences dsId m hm
    simp only [Bool.and_eq_true, beq_iff_eq]
    exact ⟨h1, h2⟩
  · have hflt : doc.sentences.filter (fun s => s.datasetId == dsId) = [] := by
      refine List.filter_eq_nil_iff.mpr ?_
      intro s hs hbe
      exact hin ((mem_datasetIdsInOrder doc.sentences dsId).mpr
        ⟨s, hs, beq_iff_eq.mp hbe⟩)
    have h1 : ((datasetIdsInOrder doc.sentences).flatMap
        (backupGroupRows (ensureDecksForImport doc.datasets doc.decks)
          doc.sentences)).filter
        (fun s => s.datasetId == dsId && s.deckId ==
          defaultDeckIdFor (ensureDecksForImport doc.datasets doc.decks) dsId) = [] :=
      filter_flatMap_group_nil dsId (fun x : String => x) _ _ hk hpred _
        (by simpa using hin)
    rw [h1]
    unfold backupGroupRows
    rw [hflt]
    rfl

theorem backupGroupRows_id_monotone (decks : List Deck) (ss : List BackupSentence)
    (a : String) (r1 r2 : SentenceRow) (h1 : r1 ∈ backupGroupRows decks ss a)
    (h2 : r2 ∈ backupGroupRows decks ss a) (hlt : r1.order < r2.order) :
    strLe r1.id r2.id = true := by
  unfold backupGroupRows at h1 h2
  rcases List.mem_map.mp h1 with ⟨p, hp, hpr⟩
  rcases List.mem_map.mp h2 with ⟨q, hq, hqr⟩
  rw [List.mem_enum_iff_getElem?] at hp hq
  obtain ⟨hplen, hpel⟩ := List.getElem?_eq_some.mp hp
  obtain ⟨hqlen, hqel⟩ := List.getElem?_eq_some.mp hq
  have hsorted : (sortBackupById (ss.filter (fun s => s.datasetId == a))).Pairwise
      backupIdLe := List.sorted_insertionSort backupIdLe _
  have e1 : r1.order = p.1 := by rw [← hpr]
  have e2 : r2.order = q.1 := by rw [← hqr]
  have hij : p.1 < q.1 := by omega
  have hrel := List.pairwise_iff_get.mp hsorted ⟨p.1, hplen⟩ ⟨q.1, hqlen⟩ hij
  have hr1id : r1.id = p.2.id := by rw [← hpr]
  have hr2id : r2.id = q.2.id := by rw [← hqr]
  rw [hr1id, hr2id]
  have hp2 : p.2 = (sortBackupById (ss.filter (fun s => s.datasetId == a))).get
      ⟨p.1, hplen⟩ := by
    rw [List.get_eq_getElem, hpel]
  have hq2 : q.2 = (sortBackupById (ss.filter (fun s => s.datasetId == a))).get
      ⟨q.1, hqlen⟩ := by
    rw [List.get_eq_getElem, hqel]
  rw [hp2, hq2]
  exact hrel

theorem restore_pathProgress_find (doc : BackupDoc) (now : ℚ) (ds : Dataset)
    (hnd : (doc.datasets.map (fun d => d.id)).Nodup) (hds : ds ∈ doc.datasets)
    (hpp : doc.pathProgress = []) :
    getPathProgress (importAllFromJSON doc now) ds.id
      (defaultDeckIdFor (ensureDecksForImport doc.datasets doc.decks) ds.id) =
      some (restoreDerivedPP doc now ds) := by
  unfold getPathProgress
  rw [importAllFromJSON_pathProgress doc now hpp]
  refine find?_map_of_unique_key (fun d : Dataset => d.id) (restoreDerivedPP doc now)
    _ doc.datasets hnd ds hds ?_ ?_
  · simp only [Bool.and_eq_true, beq_iff_eq]
    exact ⟨rfl, rfl⟩
  · intro a ha hne
    have hfst : (((restoreDerivedPP doc now a).datasetId == ds.id) : Bool) = false := by
      simp only [beq_eq_false_iff_ne]
      exact hne
    rw [hfst, Bool.false_and]

/-- C10: whenever a Sentence is counted as studied — a linear advance with
`countsAsRep = true`, or any SRS grading — its stored `tokenCount` is
recomputed from its current target text via the Tokenizer
(`countTokens (effTargetText r)`) and persisted whenever it differs from the
stored value. The linear-advance conjuncts hold for any study mode; the SRS
grading conjuncts assume the progress row is in SRS mode, matching the app,
which only grades while studying in SRS mode. The conclusions hold for an
arbitrary stored `r.tokenCount`, so
a non-negative token-count override supplied by an import's token-count
column is silently overwritten the first time the row is studied, and the
lifetime-token increment uses the recomputed count, not the stored one. -/
theorem c10_studied_recomputes_tokens
    (st : AppState) (ds : Dataset) (pp : PathProgressRow) (r : SentenceRow)
    (delta : Int) (rating : Rating) (now : ℚ)
    (hdsid : st.datasetId ≠ "") (hdkid : st.deckId ≠ "")
    (hdata : st.dataset = some ds)
    (hpp : st.pathProg = some pp)
    (hkds : pp.datasetId = st.datasetId) (hkdk : pp.deckId = st.deckId)
    (hrow : st.row = some r)
    (hfound : getSentenceById st.db r.id = some r) :
    ((getSentenceById (bumpLinear st delta true now).db r.id).map
        (fun s => s.tokenCount) = some (countTokens (effTargetText r) ds.cjkMode)) ∧
    (∀ nxt, getByOrder (ensureTokenCountForRow st.dataset st.db r).2 st.datasetId
          st.deckId ((max 0 ((pp.linearOrder : Int) + delta)).toNat) = some nxt →
        (getPathProgress (bumpLinear st delta true now).db st.datasetId st.deckId).map
            (fun q => q.lifetimeTokens) =
          some (pp.lifetimeTokens + countTokens (effTargetText r) ds.cjkMode)) ∧
    (pp.mode = .srs →
      (getSentenceById (rateSRS st rating now).db r.id).map
        (fun s => s.tokenCount) = some (countTokens (effTargetText r) ds.cjkMode)) ∧
    (pp.mode = .srs →
      (getPathProgress (rateSRS st rating now).db st.datasetId st.deckId).map
        (fun q => q.lifetimeTokens) =
      some (pp.lifetimeTokens + countTokens (effTargetText r) ds.cjkMode)) := by
  have hguardn : ¬ ((st.datasetId == "" || st.deckId == "") = true) := by
    simp [hdsid, hdkid]
  have hE1 : (ensureTokenCountForRow st.dataset st.db r).1 =
      countTokens (effTargetText r) ds.cjkMode := by
    rw [hdata]; exact ensure_fst ds st.db r
  have hEById : (getSentenceById (ensureTokenCountForRow st.dataset st.db r).2 r.id).map
      (fun s => s.tokenCount) = some (countTokens (effTargetText r) ds.cjkMode) := by
    rw [hdata]; exact ensure_getById ds st.db r hfound
  have hEpp : (ensureTokenCountForRow st.dataset st.db r).2.pathProgress =
      st.db.pathProgress := (ensure_tables st.dataset st.db r).1
  refine ⟨?_, ?_, ?_, ?_⟩
  · cases hnext : getByOrder (ensureTokenCountForRow st.dataset st.db r).2 st.datasetId
        st.deckId ((max 0 ((pp.linearOrder : Int) + delta)).toNat) with
    | none =>
      have hbl : (bumpLinear st delta true now).db.sentences =
          (ensureTokenCountForRow st.dataset st.db r).2.sentences := by
        unfold bumpLinear
        rw [if_neg hguardn, hpp, hrow]
        simp only [hnext]
      have h2 : getSentenceById (bumpLinear st delta true now).db r.id =
          getSentenceById (ensureTokenCountForRow st.dataset st.db r).2 r.id := by
        unfold getSentenceById; rw [hbl]
      rw [h2]; exact hEById
    | some nxt =>
      have hbl : (bumpLinear st delta true now).db.sentences =
          (ensureTokenCountForRow st.dataset st.db r).2.sentences := by
        unfold bumpLinear
        rw [if_neg hguardn, hpp, hrow]
        simp only [hnext]
      have h2 : getSentenceById (bumpLinear st delta true now).db r.id =
          getSentenceById (ensureTokenCountForRow st.dataset st.db r).2 r.id := by
        unfold getSentenceById; rw [hbl]
      rw [h2]; exact hEById
  · intro nxt hnext
    have hbl : (bumpLinear st delta true now).db.pathProgress =
        putPathProgress (ensureTokenCountForRow st.dataset st.db r).2.pathProgress
          (bumpNextProg pp ((max 0 ((pp.linearOrder : Int) + delta)).toNat) true
            (ensureTokenCountForRow st.dataset st.db r).1 now) := by
      unfold bumpLinear
      rw [if_neg hguardn, hpp, hrow]
      simp only [hnext]
    have hfind : getPathProgress (bumpLinear st delta true now).db st.datasetId
        st.deckId =
        some (bumpNextProg pp ((max 0 ((pp.linearOrder : Int) + delta)).toNat) true
          (ensureTokenCountForRow st.dataset st.db r).1 now) := by
      unfold getPathProgress
      rw [hbl]
      exact getPathProgress_find _ _ _ _
        ((bumpNextProg_fields pp _ _ now).1.trans hkds)
        ((bumpNextProg_fields pp _ _ now).2.1.trans hkdk)
    rw [hfind]
    simp only [Option.map_some']
    rw [(bumpNextProg_fields pp _ _ now).2.2, hE1]
  · intro hmode
    rw [rateSRS_shape st pp r rating now hguardn hpp hrow]
    obtain ⟨hsents, -⟩ := pickCurrent_srs_tables (rateSRSPostState st pp r rating now) now
      (rateSRSNextProg st pp (ensureTokenCountForRow st.dataset st.db r).1 now)
      (rateSRSPostState_pp st pp r rating now hkds hkdk)
      ((rateSRSNextProg_fields st pp _ now).2.2.1.trans hmode)
    have h2 : getSentenceById (pickCurrent (rateSRSPostState st pp r rating now) now).db r.id =
        getSentenceById (ensureTokenCountForRow st.dataset st.db r).2 r.id := by
      unfold getSentenceById
      rw [hsents]
      rfl
    rw [h2]
    exact hEById
  · intro hmode
    rw [rateSRS_shape st pp r rating now hguardn hpp hrow]
    obtain ⟨-, hppres⟩ := pickCurrent_srs_tables (rateSRSPostState st pp r rating now) now
      (rateSRSNextProg st pp (ensureTokenCountForRow st.dataset st.db r).1 now)
      (rateSRSPostState_pp st pp r rating now hkds hkdk)
      ((rateSRSNextProg_fields st pp _ now).2.2.1.trans hmode)
    have h2 : getPathProgress (pickCurrent (rateSRSPostState st pp r rating now) now).db
        st.datasetId st.deckId =
        some (rateSRSNextProg st pp (ensureTokenCountForRow st.dataset st.db r).1 now) := by
      unfold getPathProgress
      rw [hppres]
      exact getPathProgress_find _ _ _ _
        ((rateSRSNextProg_fields st pp _ now).1.trans hkds)
        ((rateSRSNextProg_fields st pp _ now).2.1.trans hkdk)
    rw [h2]
    simp only [Option.map_some']
    rw [(rateSRSNextProg_fields st pp _ now).2.2.2, hE1]

theorem c10_studied_recomputes_tokens_witness :
    ((getSentenceById (bumpLinear c10St 1 true 0).db c1s0.id).map
        (fun s => s.tokenCount) = some (countTokens (effTargetText c1s0) exDataset.cjkMode)) ∧
    (∀ nxt, getByOrder (ensureTokenCountForRow c10St.dataset c10St.db c1s0).2
          c10St.datasetId c10St.deckId ((max 0 ((c2Prog.linearOrder : Int) + 1)).toNat) =
          some nxt →
        (getPathProgress (bumpLinear c10St 1 true 0).db c10St.datasetId c10St.deckId).map
            (fun q => q.lifetimeTokens) =
          some (c2Prog.lifetimeTokens + countTokens (effTargetText c1s0) exDataset.cjkMode)) ∧
    (c2Prog.mode = .srs →
      (getSentenceById (rateSRS c10St Rating.good 0).db c1s0.id).map
        (fun s => s.tokenCount) = some (countTokens (effTargetText c1s0) exDataset.cjkMode)) ∧
    (c2Prog.mode = .srs →
      (getPathProgress (rateSRS c10St Rating.good 0).db c10St.datasetId c10St.deckId).map
        (fun q => q.lifetimeTokens) =
      some (c2Prog.lifetimeTokens + countTokens (effTargetText c1s0) exDataset.cjkMode)) :=
  c10_studied_recomputes_tokens c10St exDataset c2Prog c1s0 1 Rating.good 0
    (by decide) (by decide) rfl rfl rfl rfl rfl (by decide)

/-- C7: for every delimited-text import whose header row resolves no source
column or no target column (`pickHeader`: exact match, known synonym, or
substring containment — the code's `haveSource`/`haveTarget` test), the import
fails with the error message that lists the discovered headers
(`missingColumnsMessage`), and returns no store: the error is thrown before
the transaction opens, so no Sentence, ImportBatch, SRSState or PathProgress
row is written or modified. -/
theorem c7_missing_columns_fail (db : DB) (dataset : Dataset) (deckId filename : String)
    (text : String) (delimiter : Char) (mapping : ImportMapping) (mode : ImportMode)
    (importId : String) (freshId : Nat → String) (now : ℚ)
    (hcols : ((parseDelimited text delimiter).headers.contains
        (normKey (inferMappingFromHeaders (parseDelimited text delimiter).headers
          mapping).sourceKey) &&
      (parseDelimited text delimiter).headers.contains
        (normKey (inferMappingFromHeaders (parseDelimited text delimiter).headers
          mapping).targetKey)) = false) :
    importCSVorTSV db dataset deckId filename text delimiter mapping mode importId
        freshId now =
      Except.error (missingColumnsMessage (parseDelimited text delimiter).headers) ∧
    ∀ result, importCSVorTSV db dataset deckId filename text delimiter mapping mode
        importId freshId now ≠ Except.ok result := by
  constructor
  · unfold importCSVorTSV
    simp only [hcols, Bool.false_eq_true, if_false]
  · intro result hok
    unfold importCSVorTSV at hok
    simp only [hcols, Bool.false_eq_true, if_false] at hok
    exact Except.noConfusion hok

theorem c7_missing_columns_fail_witness :
    (importCSVorTSV c6DB exDataset "dk" "file.tsv" "Foo\tBar\nx\ty" '\t' defaultMapping
        ImportMode.append "imp1" freshIdSupply 0 =
      Except.error (missingColumnsMessage (parseDelimited "Foo\tBar\nx\ty" '\t').headers) ∧
    ∀ result, importCSVorTSV c6DB exDataset "dk" "file.tsv" "Foo\tBar\nx\ty" '\t'
        defaultMapping ImportMode.append "imp1" freshIdSupply 0 ≠ Except.ok result) :=
  c7_missing_columns_fail c6DB exDataset "dk" "file.tsv" "Foo\tBar\nx\ty" '\t'
    defaultMapping ImportMode.append "imp1" freshIdSupply 0 (by decide)

/-- C5: grading a card that has `reps = 3` and `intervalDays = 10` with grade
"again" yields `reps = 0`, `intervalDays = 0` (so the new `dueAt` computed by
`rateSRS` equals the grading time: the card is due immediately), and an ease
lowered by the fixed step 0.2 while clamped to remain within `[1.3, 2.8]`. -/
theorem again_resets_reps (e now : ℚ) (hlo : 13/10 ≤ e) (hhi : e ≤ 28/10) :
    (scheduleSRS ⟨3, 10, e⟩ .again).reps = 0 ∧
    (scheduleSRS ⟨3, 10, e⟩ .again).intervalDays = 0 ∧
    now + (scheduleSRS ⟨3, 10, e⟩ .again).intervalDays * msPerDay = now ∧
    (scheduleSRS ⟨3, 10, e⟩ .again).ease = max (13/10) (e - 2/10) ∧
    13/10 ≤ (scheduleSRS ⟨3, 10, e⟩ .again).ease ∧
    (scheduleSRS ⟨3, 10, e⟩ .again).ease ≤ 28/10 ∧
    (scheduleSRS ⟨3, 10, e⟩ .again).ease ≤ e := by
  have hmin : min (28/10 : ℚ) (e - 2/10) = e - 2/10 := by
    apply min_eq_right; linarith
  refine ⟨rfl, rfl, by simp [scheduleSRS, msPerDay], ?_, ?_, ?_, ?_⟩
  · simp [scheduleSRS, scoreSRS, clamp, hmin]
  · simp [scheduleSRS, scoreSRS, clamp]
  · simp only [scheduleSRS, scoreSRS, clamp, hmin]
    rw [max_le_iff]
    constructor <;> linarith
  · simp only [scheduleSRS, scoreSRS, clamp, hmin]
    rw [max_le_iff]
    constructor <;> linarith

theorem again_resets_reps_witness :
    (scheduleSRS ⟨3, 10, 11/5⟩ .again).reps = 0 ∧
    (scheduleSRS ⟨3, 10, 11/5⟩ .again).intervalDays = 0 ∧
    (0 : ℚ) + (scheduleSRS ⟨3, 10, 11/5⟩ .again).intervalDays * msPerDay = 0 ∧
    (scheduleSRS ⟨3, 10, 11/5⟩ .again).ease = max (13/10) (11/5 - 2/10) ∧
    13/10 ≤ (scheduleSRS ⟨3, 10, 11/5⟩ .again).ease ∧
    (scheduleSRS ⟨3, 10, 11/5⟩ .again).ease ≤ 28/10 ∧
    (scheduleSRS ⟨3, 10, 11/5⟩ .again).ease ≤ 11/5 :=
  again_resets_reps (11/5) 0 (by norm_num) (by norm_num)

/-! ### Concrete fixture for the linear-advance claims -/

/-- C1 counterexample: on the Deck with token counts `[3, 5, 2]`, starting from
`linearOrder = 0` with zero lifetime counters, three calls of
`advance(+1, true)` (`bumpLinear 1 true`) do NOT yield lifetime reps 3 and
lifetime tokens 10: the third call looks for a Sentence at order 3, finds none
("End of path") and leaves the counters at reps 2, tokens 8. -/
theorem c1_linear_advance_counterexample :
    c1St3.pathProg.map (fun p => (p.lifetimeReps, p.lifetimeTokens)) = some (2, 8) ∧
    c1St3.pathProg.map (fun p => (p.lifetimeReps, p.lifetimeTokens)) ≠ some (3, 10) := by
  decide

/-- C1 (amended): in linear mode, for a Deck whose three Sentences have token
counts `[3, 5, 2]`, starting from `linearOrder = 0` with zero lifetime
counters, calling `advance(+1, true)` three times yields lifetime reps 2 and
lifetime tokens 3 + 5 = 8: each successful call adds the token count of the
Sentence being left (not the one being entered), and the third call is a
no-op because the pointer `Math.max(0, 2 + 1) = 3` addresses no Sentence. -/
theorem c1_linear_advance_amended :
    c1St1.pathProg =
      some { c1Prog with
              linearOrder := 1
              srsNewOrder := 1
              lifetimeReps := 1
              lifetimeTokens := 3 } ∧
    c1St2.pathProg =
      some { c1Prog with
              linearOrder := 2
              srsNewOrder := 2
              lifetimeReps := 2
              lifetimeTokens := 8 } ∧
    c1St3 = c1St2 := by
  decide

/-! ### Fixtures and theorems for the SRS card-selection claims -/

/-- C2 counterexample: no SRSState row is due (`s0`'s row is due at 100, the
clock reads 0), `srsNewOrder = 0`, the Sentence `s0` at order 0 already has an
SRSState row and `s1` at order 1 has none. The claim says the scan skips `s0`
and selects `s1`; the code selects `s0` (reusing its existing row) — there is
no forward scan. -/
theorem c2_new_card_probe_counterexample :
    dueRows c2St.db "ds" "dk" 0 = [] ∧
    (getSRS c2St.db "ds" "dk" "s0").isSome = true ∧
    getSRS c2St.db "ds" "dk" "s1" = none ∧
    (pickCurrent c2St 0).row = some c1s0 ∧
    (pickCurrent c2St 0).row ≠ some c1s1 := by
  decide

/-- C2 (amended): in SRS mode, when no SRSState row is due at the time of
`pickCurrent`, the operation selects exactly the Sentence at order
`srsNewOrder` (the `[datasetId+deckId+order]` lookup): there is no forward
scan and no probe pointer. If that Sentence already has an SRSState row, the
existing row is reused; otherwise a zero-initialized row is seeded. If no
Sentence exists at `srsNewOrder`, there is no new card. -/
theorem c2_new_card_selection_amended (st : AppState) (now : ℚ) (pp : PathProgressRow)
    (hds : st.datasetId ≠ "") (hdk : st.deckId ≠ "")
    (hpp : getPathProgress st.db st.datasetId st.deckId = some pp)
    (hmode : pp.mode = .srs)
    (hdue : dueRows st.db st.datasetId st.deckId now = []) :
    (pickCurrent st now).row = getByOrder st.db st.datasetId st.deckId pp.srsNewOrder ∧
    (∀ fresh, getByOrder st.db st.datasetId st.deckId pp.srsNewOrder = some fresh →
      (pickCurrent st now).srsRow =
        some ((getSRS st.db st.datasetId st.deckId fresh.id).getD
          (seededSRS st.datasetId st.deckId fresh.id now))) := by
  have hguard : (st.datasetId == "" || st.deckId == "") = false := by
    simp [hds, hdk]
  have hsorted : dueSorted st.db st.datasetId st.deckId now = [] := by
    rw [dueSorted, hdue]; rfl
  cases hgo : getByOrder st.db st.datasetId st.deckId pp.srsNewOrder with
  | none =>
    refine ⟨?_, ?_⟩
    · simp only [pickCurrent, hguard, Bool.false_eq_true, if_false, hpp, hmode, hsorted,
        List.head?_nil, hgo]
    · intro fresh hfresh
      exact absurd hfresh (by simp)
  | some fresh =>
    cases hsrs : getSRS st.db st.datasetId st.deckId fresh.id with
    | none =>
      refine ⟨?_, ?_⟩
      · simp only [pickCurrent, hguard, Bool.false_eq_true, if_false, hpp, hmode, hsorted,
          List.head?_nil, hgo, hsrs]
      · intro f hf
        injection hf with hf
        subst hf
        simp only [pickCurrent, hguard, Bool.false_eq_true, if_false, hpp, hmode, hsorted,
          List.head?_nil, hgo, hsrs, Option.getD_none]
    | some existing =>
      refine ⟨?_, ?_⟩
      · simp only [pickCurrent, hguard, Bool.false_eq_true, if_false, hpp, hmode, hsorted,
          List.head?_nil, hgo, hsrs]
      · intro f hf
        injection hf with hf
        subst hf
        simp only [pickCurrent, hguard, Bool.false_eq_true, if_false, hpp, hmode, hsorted,
          List.head?_nil, hgo, hsrs, Option.getD_some]

theorem c2_new_card_selection_amended_witness :
    ((pickCurrent c2St 0).row = getByOrder c2St.db c2St.datasetId c2St.deckId c2Prog.srsNewOrder ∧
    (∀ fresh, getByOrder c2St.db c2St.datasetId c2St.deckId c2Prog.srsNewOrder = some fresh →
      (pickCurrent c2St 0).srsRow =
        some ((getSRS c2St.db c2St.datasetId c2St.deckId fresh.id).getD
          (seededSRS c2St.datasetId c2St.deckId fresh.id 0)))) :=
  c2_new_card_selection_amended c2St 0 c2Prog (by decide) (by decide) (by decide) rfl
    (by decide)

/-- C9: calling `pickCurrent` twice in SRS mode with no grading in between, on
a Deck with one due card, returns the same Sentence (hence the same Sentence
id) both times; the first call does not mutate the store on the due path. -/
theorem c9_pick_current_idempotent (st : AppState) (now1 now2 : ℚ)
    (pp : PathProgressRow) (s : SRSRow)
    (hds : st.datasetId ≠ "") (hdk : st.deckId ≠ "")
    (hpp : getPathProgress st.db st.datasetId st.deckId = some pp)
    (hmode : pp.mode = .srs)
    (hdue1 : dueSorted st.db st.datasetId st.deckId now1 = [s])
    (hdue2 : dueSorted st.db st.datasetId st.deckId now2 = [s]) :
    (pickCurrent st now1).db = st.db ∧
    (pickCurrent st now1).row = getSentenceById st.db s.sentenceId ∧
    (pickCurrent (pickCurrent st now1) now2).row = (pickCurrent st now1).row := by
  have hguard : (st.datasetId == "" || st.deckId == "") = false := by
    simp [hds, hdk]
  have h1 : pickCurrent st now1 =
      { st with row := getSentenceById st.db s.sentenceId, srsRow := some s } := by
    simp only [pickCurrent, hguard, Bool.false_eq_true, if_false, hpp, hmode, hdue1,
      List.head?_cons]
  refine ⟨by rw [h1], by rw [h1], ?_⟩
  have h2 : pickCurrent { st with row := getSentenceById st.db s.sentenceId, srsRow := some s } now2 = { st with row := getSentenceById st.db s.sentenceId, srsRow := some s } := by
    simp only [pickCurrent, hguard, Bool.false_eq_true, if_false, hpp, hmode, hdue2,
      List.head?_cons]
  rw [h1, h2]

theorem c9_pick_current_idempotent_witness :
    (pickCurrent c9St 5).db = c9St.db ∧
    (pickCurrent c9St 5).row = getSentenceById c9St.db c9SRS.sentenceId ∧
    (pickCurrent (pickCurrent c9St 5) 7).row = (pickCurrent c9St 5).row :=
  c9_pick_current_idempotent c9St 5 7 c2Prog c9SRS (by decide) (by decide) (by decide) rfl
    (by decide) (by decide)

/-- C6: importing a 2-column TSV with 3 non-empty rows in append mode into an
empty Deck creates exactly 3 Sentences with orders 0, 1, 2 and one ImportBatch
with `rowCount = 3`; deleting that batch with `deleteImportBatch` leaves the
Deck with 0 Sentences and both PathProgress pointers at 0. -/
theorem c6_import_round_trip :
    deckCount c6DB "ds" "dk" = 0 ∧
    c6Result.isOk = true ∧
    ordersOf c6DB1 "ds" "dk" = [0, 1, 2] ∧
    deckCount c6DB1 "ds" "dk" = 3 ∧
    c6DB1.imports.map (fun b => (b.id, b.rowCount)) = [("imp1", 3)] ∧
    c6After.2 = 3 ∧
    deckCount c6After.1 "ds" "dk" = 0 ∧
    c6After.1.imports = [] ∧
    (getPathProgress c6After.1 "ds" "dk").map (fun p => (p.linearOrder, p.srsNewOrder)) =
      some (0, 0) := by
  decide

/-- C4 counterexample: the Deck holds one Sentence with id `"a"` and order 0
(dense). An append-mode import whose row supplies the external id `"a"`
upserts by primary key: the existing Sentence is replaced by the new row at
order 1, leaving order set `{1}` instead of `{0}` — the density invariant is
violated after an import with a colliding external id. -/
theorem c4_order_density_counterexample :
    Dense c4DB "ds" "dk" ∧
    c4Result.isOk = true ∧
    ordersOf c4DB1 "ds" "dk" = [1] ∧
    deckCount c4DB1 "ds" "dk" = 1 ∧
    ¬ Dense c4DB1 "ds" "dk" := by
  decide

/-- C3 counterexample: the v1 -> v2 migration copies the legacy `currentIndex`
into both pointers without clamping. A v1 store with 3 Sentences and legacy
`currentIndex = 5` migrates to a PathProgress row with
`linearOrder = srsNewOrder = 5 > max(0, 3-1) = 2`: the clamp invariant does
not hold immediately after migration. -/
theorem c3_progress_clamp_counterexample :
    deckCount c3Mig "ds" "deck_ds" = 3 ∧
    (getPathProgress c3Mig "ds" "deck_ds").map (fun p => (p.linearOrder, p.srsNewOrder)) =
      some (5, 5) ∧
    ¬ PointerInv c3Mig := by
  decide

/-- C3 (amended): the clamp `0 ≤ linearOrder, srsNewOrder ≤ max(0, N-1)` is
preserved by a linear advance (any `delta`, any `countsAsRep`) and by an SRS
grading, on app-maintained state: the cached progress row mirrors a stored
row of the selected deck, the presented Sentence is stored, Sentence ids are
unique, the deck's orders are dense, and (for grading) an SRSState is loaded,
as `pickCurrent` guarantees. The normalization pass run by a batch deletion
re-establishes the clamp for the affected deck's row unconditionally. The
clamp is NOT an invariant of every operation, however: the v1 -> v2 migration
copies the legacy `currentIndex` into both pointers unclamped (see the
counterexample). -/
theorem c3_progress_clamp_amended
    (st : AppState) (delta : Int) (countRep : Bool) (rating : Rating) (now : ℚ)
    (pp : PathProgressRow) (r : SentenceRow)
    (db0 : DB) (ds0 dk0 imp0 : String) (pp' : PathProgressRow)
    (hpp : st.pathProg = some pp) (hppmem : pp ∈ st.db.pathProgress)
    (hppds : pp.datasetId = st.datasetId) (hppdk : pp.deckId = st.deckId)
    (hrow : st.row = some r) (hrmem : r ∈ st.db.sentences)
    (hsrs : st.srsRow.isSome = true)
    (hnd : (st.db.sentences.map (fun s => s.id)).Nodup)
    (hdense : Dense st.db st.datasetId st.deckId)
    (hinv : PointerInv st.db)
    (hnd0 : (db0.sentences.map (fun s => s.id)).Nodup)
    (hfind : getPathProgress (deleteImportBatch db0 ds0 dk0 imp0 now).1 ds0 dk0 =
      some pp') :
    PointerInv (bumpLinear st delta countRep now).db ∧
    PointerInv (rateSRS st rating now).db ∧
    (pp'.linearOrder ≤ deckCount (deleteImportBatch db0 ds0 dk0 imp0 now).1 ds0 dk0 - 1 ∧
     pp'.srsNewOrder ≤ deckCount (deleteImportBatch db0 ds0 dk0 imp0 now).1 ds0 dk0 - 1) :=
  ⟨bumpLinear_pointerInv st delta countRep now pp r hpp hppmem hppds hppdk hrow hrmem
      hnd hdense hinv,
   rateSRS_pointerInv st rating now pp r hpp hppmem hppds hppdk hrow hrmem hsrs
      hnd hdense hinv,
   (deleteImportBatch_facts db0 ds0 dk0 imp0 now hnd0).2 pp' hfind⟩

theorem c3_progress_clamp_amended_witness :
    PointerInv (bumpLinear c10St 1 true 0).db ∧
    PointerInv (rateSRS c10St Rating.good 0).db ∧
    (c1Prog.linearOrder ≤ deckCount (deleteImportBatch c1DB "ds" "dk" "nosuch" 0).1
        "ds" "dk" - 1 ∧
     c1Prog.srsNewOrder ≤ deckCount (deleteImportBatch c1DB "ds" "dk" "nosuch" 0).1
        "ds" "dk" - 1) :=
  c3_progress_clamp_amended c10St 1 true Rating.good 0 c2Prog c1s0 c1DB "ds" "dk" "nosuch"
    c1Prog rfl (by decide) rfl rfl rfl (by decide) rfl (by decide) (by decide) (by decide)
    (by decide) (by decide)

/-- C4 (amended): order density — the `order` values of a (Language, Deck)
are exactly `{0,...,N-1}` — is preserved by an append-mode import whose
inserted rows carry fresh, pairwise-distinct ids (the generated-id path), is
established outright by a replace-mode import with fresh distinct ids, by the
normalization pass of a batch deletion (for any store with unique Sentence
ids), and by the v1 -> v2 migration (for every migrated deck, given distinct
dataset ids). It is NOT preserved by an import whose rows supply an external
id colliding with a stored Sentence: the keyed upsert then replaces the old
row and leaves a gap (see the counterexample). -/
theorem c4_order_density_amended
    (db : DB) (dataset : Dataset) (deckId filename text : String) (delimiter : Char)
    (mapping : ImportMapping) (impA impR : String) (freshId : Nat → String) (now : ℚ)
    (dbA dbR : DB) (outA outR : ImportOutcome)
    (db2 : DB) (ds2 dk2 imp2 : String)
    (v1 : V1DB) (dsM : Dataset)
    (hdense : Dense db dataset.id deckId)
    (hokA : importCSVorTSV db dataset deckId filename text delimiter mapping
      ImportMode.append impA freshId now = Except.ok (dbA, outA))
    (hfreshA : ∀ m ∈ importToInsert db dataset deckId text delimiter mapping
      ImportMode.append impA freshId now, ¬ m.id ∈ db.sentences.map (fun s => s.id))
    (hndA : ((importToInsert db dataset deckId text delimiter mapping ImportMode.append
      impA freshId now).map (fun s => s.id)).Nodup)
    (hokR : importCSVorTSV db dataset deckId filename text delimiter mapping
      ImportMode.replace impR freshId now = Except.ok (dbR, outR))
    (hfreshR : ∀ m ∈ importToInsert db dataset deckId text delimiter mapping
      ImportMode.replace impR freshId now,
      ¬ m.id ∈ (clearPathData db dataset.id deckId now).sentences.map (fun s => s.id))
    (hndR : ((importToInsert db dataset deckId text delimiter mapping ImportMode.replace
      impR freshId now).map (fun s => s.id)).Nodup)
    (hnd2 : (db2.sentences.map (fun s => s.id)).Nodup)
    (hndM : (v1.datasets.map (fun d => d.id)).Nodup) (hdsM : dsM ∈ v1.datasets) :
    Dense dbA dataset.id deckId ∧
    Dense dbR dataset.id deckId ∧
    Dense (deleteImportBatch db2 ds2 dk2 imp2 now).1 ds2 dk2 ∧
    Dense (upgradeV1toV2 v1 now) dsM.id ("deck_" ++ dsM.id) :=
  ⟨import_append_dense db dataset deckId filename text delimiter mapping impA freshId
      now dbA outA hdense hokA hfreshA hndA,
   import_replace_dense db dataset deckId filename text delimiter mapping impR freshId
      now dbR outR hokR hfreshR hndR,
   (deleteImportBatch_facts db2 ds2 dk2 imp2 now hnd2).1,
   (migration_dense v1 now dsM hndM hdsM).1⟩

theorem c4_order_density_amended_witness :
    Dense c6DB1 "ds" "dk" ∧
    Dense c4wDBR "ds" "dk" ∧
    Dense (deleteImportBatch c6DB1 "ds" "dk" "imp1" 0).1 "ds" "dk" ∧
    Dense (upgradeV1toV2 c3V1 0) "ds" ("deck_" ++ "ds") := by
  have h := c4_order_density_amended c6DB exDataset "dk" "file.tsv" c6Text '\t'
    defaultMapping "imp1" "imp2" freshIdSupply 0 c6DB1 c4wDBR c4wOutA c4wOutR
    c6DB1 "ds" "dk" "imp1" c3V1 exDataset
    (by decide) (by rfl) (by decide) (by decide) (by rfl) (by decide) (by decide)
    (by decide) (by decide) (by decide)
  exact h

/-- C8: the v1 -> v2 store migration and the restore of a legacy snapshot
(Sentences lacking `deckId`/`order`/`importId`, no decks, no per-deck
progress) both synthesize one "Main" deck per Language (`deck_` + dataset
id), assign each Language's Sentences the sequential orders `0..n-1` with
the assignment monotone in the Sentence id's code-point order (the
`localeCompare` order on the lowercase-alphanumeric ids the app generates),
and derive a PathProgress row carrying the legacy lifetime counters whose
`linearOrder` and `srsNewOrder` both equal the legacy `currentIndex`
pointer, unclamped. -/
theorem c8_legacy_upgrade
    (v1 : V1DB) (doc : BackupDoc) (now : ℚ) (ds dsB : Dataset)
    (hnd : (v1.datasets.map (fun d => d.id)).Nodup) (hds : ds ∈ v1.datasets)
    (hndB : (doc.datasets.map (fun d => d.id)).Nodup) (hdsB : dsB ∈ doc.datasets)
    (hdecks : doc.decks = []) (hppB : doc.pathProgress = [])
    (hneed : (doc.sentences.any (fun s =>
      s.deckId.isNone || s.order.isNone || s.importId.isNone)) = true) :
    ((upgradeV1toV2 v1 now).decks = v1.datasets.map mkMainDeck ∧
     (mkMainDeck ds).name = "Main" ∧
     ordersOf (upgradeV1toV2 v1 now) ds.id ("deck_" ++ ds.id) =
       List.range (deckCount (upgradeV1toV2 v1 now) ds.id ("deck_" ++ ds.id)) ∧
     (∀ r1 r2, r1 ∈ sentencesOf (upgradeV1toV2 v1 now) ds.id ("deck_" ++ ds.id) →
       r2 ∈ sentencesOf (upgradeV1toV2 v1 now) ds.id ("deck_" ++ ds.id) →
       r1.order < r2.order → strLe r1.id r2.id = true) ∧
     getPathProgress (upgradeV1toV2 v1 now) ds.id ("deck_" ++ ds.id) =
       some (derivePathProgress ds (findLegacyProgress v1.progress ds.id) now) ∧
     (derivePathProgress ds (findLegacyProgress v1.progress ds.id) now).linearOrder =
       ((findLegacyProgress v1.progress ds.id).map (fun p => p.currentIndex)).getD 0 ∧
     (derivePathProgress ds (findLegacyProgress v1.progress ds.id) now).srsNewOrder =
       (derivePathProgress ds (findLegacyProgress v1.progress ds.id) now).linearOrder ∧
     (derivePathProgress ds (findLegacyProgress v1.progress ds.id) now).lifetimeReps =
       ((findLegacyProgress v1.progress ds.id).map (fun p => p.lifetimeReps)).getD 0 ∧
     (derivePathProgress ds (findLegacyProgress v1.progress ds.id) now).lifetimeTokens =
       ((findLegacyProgress v1.progress ds.id).map (fun p => p.lifetimeTokens)).getD 0) ∧
    ((importAllFromJSON doc now).decks = doc.datasets.map mkMainDeck ∧
     defaultDeckIdFor (ensureDecksForImport doc.datasets doc.decks) dsB.id =
       "deck_" ++ dsB.id ∧
     ordersOf (importAllFromJSON doc now) dsB.id
       (defaultDeckIdFor (ensureDecksForImport doc.datasets doc.decks) dsB.id) =
       List.range (deckCount (importAllFromJSON doc now) dsB.id
         (defaultDeckIdFor (ensureDecksForImport doc.datasets doc.decks) dsB.id)) ∧
     (∀ r1 r2, r1 ∈ sentencesOf (importAllFromJSON doc now) dsB.id
         (defaultDeckIdFor (ensureDecksForImport doc.datasets doc.decks) dsB.id) →
       r2 ∈ sentencesOf (importAllFromJSON doc now) dsB.id
         (defaultDeckIdFor (ensureDecksForImport doc.datasets doc.decks) dsB.id) →
       r1.order < r2.order → strLe r1.id r2.id = true) ∧
     getPathProgress (importAllFromJSON doc now) dsB.id
       (defaultDeckIdFor (ensureDecksForImport doc.datasets doc.decks) dsB.id) =
       some (restoreDerivedPP doc now dsB) ∧
     (restoreDerivedPP doc now dsB).linearOrder =
       ((findLegacyProgress doc.progress dsB.id).map (fun p => p.currentIndex)).getD 0 ∧
     (restoreDerivedPP doc now dsB).srsNewOrder =
       (restoreDerivedPP doc now dsB).linearOrder ∧
     (restoreDerivedPP doc now dsB).lifetimeReps =
       ((findLegacyProgress doc.progress dsB.id).map (fun p => p.lifetimeReps)).getD 0 ∧
     (restoreDerivedPP doc now dsB).lifetimeTokens =
       ((findLegacyProgress doc.progress dsB.id).map (fun p => p.lifetimeTokens)).getD 0) := by
  constructor
  · refine ⟨rfl, rfl, (migration_dense v1 now ds hnd hds).2, ?_,
      migration_pathProgress v1 now ds hnd hds, rfl, rfl, rfl, rfl⟩
    intro r1 r2 hr1 hr2 hlt
    rw [migrate_sentencesOf v1 now ds hnd hds] at hr1 hr2
    exact migrateSentences_id_monotone ds _ r1 r2 hr1 hr2 hlt
  · have hsof := restore_sentencesOf doc now dsB.id hneed
    refine ⟨?_, ?_, ?_, ?_, restore_pathProgress_find doc now dsB hndB hdsB hppB,
      rfl, rfl, rfl, rfl⟩
    · show ensureDecksForImport doc.datasets doc.decks = doc.datasets.map mkMainDeck
      rw [hdecks]
      exact ensureDecks_of_no_decks doc.datasets
    · rw [hdecks, ensureDecks_of_no_decks]
      exact defaultDeckIdFor_main doc.datasets dsB hndB hdsB
    · unfold ordersOf deckCount
      rw [hsof]
      exact backupGroupRows_orders _ _ _
    · intro r1 r2 hr1 hr2 hlt
      rw [hsof] at hr1 hr2
      exact backupGroupRows_id_monotone _ _ _ r1 r2 hr1 hr2 hlt

theorem c8_legacy_upgrade_witness :
    ((upgradeV1toV2 c3V1 0).decks = c3V1.datasets.map mkMainDeck ∧
     (mkMainDeck exDataset).name = "Main" ∧
     ordersOf (upgradeV1toV2 c3V1 0) "ds" ("deck_" ++ "ds") =
       List.range (deckCount (upgradeV1toV2 c3V1 0) "ds" ("deck_" ++ "ds")) ∧
     (∀ r1 r2, r1 ∈ sentencesOf (upgradeV1toV2 c3V1 0) "ds" ("deck_" ++ "ds") →
       r2 ∈ sentencesOf (upgradeV1toV2 c3V1 0) "ds" ("deck_" ++ "ds") →
       r1.order < r2.order → strLe r1.id r2.id = true) ∧
     getPathProgress (upgradeV1toV2 c3V1 0) "ds" ("deck_" ++ "ds") =
       some (derivePathProgress exDataset (findLegacyProgress c3V1.progress "ds") 0) ∧
     (derivePathProgress exDataset (findLegacyProgress c3V1.progress "ds") 0).linearOrder =
       ((findLegacyProgress c3V1.progress "ds").map (fun p => p.currentIndex)).getD 0 ∧
     (derivePathProgress exDataset (findLegacyProgress c3V1.progress "ds") 0).srsNewOrder =
       (derivePathProgress exDataset (findLegacyProgress c3V1.progress "ds") 0).linearOrder ∧
     (derivePathProgress exDataset (findLegacyProgress c3V1.progress "ds") 0).lifetimeReps =
       ((findLegacyProgress c3V1.progress "ds").map (fun p => p.lifetimeReps)).getD 0 ∧
     (derivePathProgress exDataset (findLegacyProgress c3V1.progress "ds") 0).lifetimeTokens =
       ((findLegacyProgress c3V1.progress "ds").map (fun p => p.lifetimeTokens)).getD 0) ∧
    ((importAllFromJSON c8Doc 0).decks = c8Doc.datasets.map mkMainDeck ∧
     defaultDeckIdFor (ensureDecksForImport c8Doc.datasets c8Doc.decks) "ds" =
       "deck_" ++ "ds" ∧
     ordersOf (importAllFromJSON c8Doc 0) "ds"
       (defaultDeckIdFor (ensureDecksForImport c8Doc.datasets c8Doc.decks) "ds") =
       List.range (deckCount (importAllFromJSON c8Doc 0) "ds"
         (defaultDeckIdFor (ensureDecksForImport c8Doc.datasets c8Doc.decks) "ds")) ∧
     (∀ r1 r2, r1 ∈ sentencesOf (importAllFromJSON c8Doc 0) "ds"
         (defaultDeckIdFor (ensureDecksForImport c8Doc.datasets c8Doc.decks) "ds") →
       r2 ∈ sentencesOf (importAllFromJSON c8Doc 0) "ds"
         (defaultDeckIdFor (ensureDecksForImport c8Doc.datasets c8Doc.decks) "ds") →
       r1.order < r2.order → strLe r1.id r2.id = true) ∧
     getPathProgress (importAllFromJSON c8Doc 0) "ds"
       (defaultDeckIdFor (ensureDecksForImport c8Doc.datasets c8Doc.decks) "ds") =
       some (restoreDerivedPP c8Doc 0 exDataset) ∧
     (restoreDerivedPP c8Doc 0 exDataset).linearOrder =
       ((findLegacyProgress c8Doc.progress "ds").map (fun p => p.currentIndex)).getD 0 ∧
     (restoreDerivedPP c8Doc 0 exDataset).srsNewOrder =
       (restoreDerivedPP c8Doc 0 exDataset).linearOrder ∧
     (restoreDerivedPP c8Doc 0 exDataset).lifetimeReps =
       ((findLegacyProgress c8Doc.progress "ds").map (fun p => p.lifetimeReps)).getD 0 ∧
     (restoreDerivedPP c8Doc 0 exDataset).lifetimeTokens =
       ((findLegacyProgress c8Doc.progress "ds").map (fun p => p.lifetimeTokens)).getD 0) :=
  c8_legacy_upgrade c3V1 c8Doc 0 exDataset exDataset (by decide) (by decide) (by decide)
    (by decide) rfl rfl (by decide)

end LemmaPath
